import Mathlib

/-!
# FEND Arcade Game: entity model, collision logic and pause/victory machine

A shallow embedding of `src/js/app.js` and `src/js/engine.js`.

Conventions of the embedding:

* JavaScript numbers that hold coordinates, speeds and time deltas are exact
  rationals (`ℚ`); scores, bonuses and millisecond clock readings are integers.
* The global singletons `player`, `allEnemies`, `game` and `gem` are the fields
  of one explicit `State` record that every operation receives and returns.
* `Math.random()` and `Date.now()` are explicit arguments of the operation that
  calls them: a draw `r` is meant to satisfy `0 ≤ r < 1`.
* Reading `game.enemySpeedArray[i]` past the end of the array gives `undefined`
  in JavaScript: `Game.continue` is total and records such a speed as `none`;
  only the reading of its result as a `State` of numbers (`Resumed.toState`) is
  partial.
-/

namespace ArcadeGame

/-- Enemy record of `app.js` (`var Enemy = function(x, y, speed)`). -/
structure Enemy where
  x : ℚ
  y : ℚ
  speed : ℚ
  deriving DecidableEq, Repr

/-- Player record of `app.js` (`var Player = function(x, y)`), with its score. -/
structure Player where
  x : ℚ
  y : ℚ
  score : ℤ
  deriving DecidableEq, Repr

/-- Gem record of `app.js` (`var Gem = function()`). -/
structure Gem where
  sprite : String
  bonus : ℤ
  x : ℚ
  y : ℚ
  deriving DecidableEq, Repr

/-- Floating text record of `app.js` (`var FloatingScoreChange = function(x, y, scoreChange)`);
`createdAt` is the reading of `Date.now()` taken by the constructor. -/
structure FloatingScoreChange where
  createdAt : ℤ
  scoreChange : ℤ
  x : ℚ
  y : ℚ
  deriving DecidableEq, Repr

/-- Game record of `app.js` (`var Game = function()`). -/
structure Game where
  isPaused : Bool
  victory : Bool
  enemySpeedArray : List ℚ
  floatingScoreChanges : List FloatingScoreChange
  deriving DecidableEq, Repr

/-- The four global objects of `app.js`: `player`, `allEnemies`, `game`, `gem`. -/
structure State where
  player : Player
  allEnemies : List Enemy
  game : Game
  gem : Gem
  deriving DecidableEq, Repr

/-- The sprite table of `Gem.prototype.regenerate`. -/
def gemSprites : List String :=
  ["images/Gem Green.png", "images/Gem Blue.png", "images/Gem Orange.png"]

/-- The bonus table of `Gem.prototype.regenerate`. -/
def gemBonuses : List ℤ := [10, 15, 20]

/-- `Enemy.prototype.update(dt)`; `r` is the value `Math.random()` returns if the
enemy leaves the screen. -/
def Enemy.update (e : Enemy) (dt r : ℚ) : Enemy :=
  let x := e.x + dt * e.speed
  if x ≥ 505 then
    { e with x := -101, speed := (⌊r * 201⌋ + 150 : ℤ) }
  else
    { e with x := x }

/-- `Player.prototype.reset()`. -/
def Player.reset (p : Player) : Player :=
  { p with x := 202, y := 405 }

/-- `new Gem()`; `r` is the draw that places the first gem. -/
def Gem.new (r : ℚ) : Gem :=
  { sprite := "images/Gem Green.png", bonus := 10, x := (⌊r * 5⌋ * 101 + 15 : ℤ), y := 10 }

/-- `Gem.prototype.regenerate()`; `r1` is the draw for `randomIndex`, `r2` the draw
for the column. An index outside the three-element tables (impossible for a draw
in `[0,1)`) reads the placeholder `"undefined"` / `0`. -/
def Gem.regenerate (g : Gem) (r1 r2 : ℚ) : Gem :=
  let randomIndex := ⌊r1 * 3⌋.toNat
  { g with
    sprite := gemSprites.getD randomIndex "undefined"
    bonus := gemBonuses.getD randomIndex 0
    x := (⌊r2 * 5⌋ * 101 + 15 : ℤ) }

/-- The first loop of `Game.prototype.pause`: `game.enemySpeedArray[i] = allEnemies[i].speed`
for every index of `allEnemies`; entries of the array past that range are kept. -/
def recordSpeeds : List Enemy → List ℚ → List ℚ
  | [], arr => arr
  | e :: es, [] => e.speed :: recordSpeeds es []
  | e :: es, _ :: arr => e.speed :: recordSpeeds es arr

/-- `Game.prototype.pause()`. -/
def Game.pause (s : State) : State :=
  { s with
    allEnemies := s.allEnemies.map (fun enemy => { enemy with speed := 0 })
    game := { s.game with
      enemySpeedArray := recordSpeeds s.allEnemies s.game.enemySpeedArray
      isPaused := true } }

/-- An enemy as the loop of `Game.prototype.continue` leaves it: its speed is what
`game.enemySpeedArray[i]` holds, a number, or `undefined` (`none`) when the array has no entry
at the enemy's index. -/
structure ResumedEnemy where
  x : ℚ
  y : ℚ
  speed : Option ℚ
  deriving DecidableEq, Repr

/-- The four globals as `Game.prototype.continue` leaves them. -/
structure Resumed where
  player : Player
  allEnemies : List ResumedEnemy
  game : Game
  gem : Gem
  deriving DecidableEq, Repr

/-- The loop of `Game.prototype.continue`: `allEnemies[i].speed = game.enemySpeedArray[i]`
for every index of `allEnemies`, whether the array has an entry there or not. -/
def restoreSpeeds : List Enemy → List ℚ → List ResumedEnemy
  | [], _ => []
  | e :: es, arr => { x := e.x, y := e.y, speed := arr.head? } :: restoreSpeeds es arr.tail

/-- `Game.prototype.continue()`: the speeds are restored, `isPaused` is cleared and, after a
victory, the player is reset, the score set to 0 and `victory` cleared. -/
def Game.continue (s : State) : Resumed :=
  let enemies := restoreSpeeds s.allEnemies s.game.enemySpeedArray
  if s.game.victory then
    { player := { s.player.reset with score := 0 }
      allEnemies := enemies
      game := { s.game with isPaused := false, victory := false }
      gem := s.gem }
  else
    { player := s.player
      allEnemies := enemies
      game := { s.game with isPaused := false }
      gem := s.gem }

/-- The enemies of a resumed game as enemies with numeric speeds; `none` when one of the
restored speeds is `undefined`. -/
def numericEnemies : List ResumedEnemy → Option (List Enemy)
  | [] => some []
  | e :: es =>
    match e.speed, numericEnemies es with
    | some v, some rest => some ({ x := e.x, y := e.y, speed := v } :: rest)
    | _, _ => none

/-- The resumed game as a `State`; `none` when a restored speed is `undefined`: the later
frames would compute `NaN` positions from it. -/
def Resumed.toState (r : Resumed) : Option State :=
  (numericEnemies r.allEnemies).map fun enemies =>
    { player := r.player, allEnemies := enemies, game := r.game, gem := r.gem }

/-- `Player.prototype.handleInput(key)`; `none` as key is JavaScript `undefined`. The result
is `none` only when `Game.continue` restored an `undefined` speed. -/
def Player.handleInput (s : State) (key : Option String) : Option State :=
  match key with
  | some "left" =>
    if s.player.x ≥ 101 ∧ s.game.isPaused = false then
      some { s with player := { s.player with x := s.player.x - 101 } }
    else some s
  | some "right" =>
    if s.player.x ≤ 303 ∧ s.game.isPaused = false then
      some { s with player := { s.player with x := s.player.x + 101 } }
    else some s
  | some "up" =>
    if s.player.y ≥ 72 ∧ s.game.isPaused = false then
      some { s with player := { s.player with y := s.player.y - 83 } }
    else some s
  | some "down" =>
    if s.player.y ≤ 322 ∧ s.game.isPaused = false then
      some { s with player := { s.player with y := s.player.y + 83 } }
    else some s
  | some "togglePause" =>
    if s.game.isPaused = false then some (Game.pause s) else (Game.continue s).toState
  | _ => some s

/-- The `allowedKeys` table of the `keyup` listener. -/
def allowedKeys (keyCode : ℕ) : Option String :=
  match keyCode with
  | 37 => some "left"
  | 38 => some "up"
  | 39 => some "right"
  | 40 => some "down"
  | 32 => some "togglePause"
  | _ => none

/-- The `keyup` listener: `player.handleInput(allowedKeys[e.keyCode])`. -/
def keyup (s : State) (keyCode : ℕ) : Option State :=
  Player.handleInput s (allowedKeys keyCode)

/-- The test of the loop body of `checkEnemyCollision`. -/
def enemyHits (player : Player) (enemy : Enemy) : Prop :=
  |enemy.y - player.y| = 10 ∧ |enemy.x - player.x| ≤ 40

instance (player : Player) (enemy : Enemy) : Decidable (enemyHits player enemy) := by
  unfold enemyHits; infer_instance

/-- The `for` loop of `checkEnemyCollision`: the enemy at which the loop breaks. -/
def firstCollision (player : Player) : List Enemy → Option Enemy
  | [] => none
  | enemy :: rest => if enemyHits player enemy then some enemy else firstCollision player rest

/-- `checkEnemyCollision()`; `now` is the `Date.now()` of the `FloatingScoreChange` constructor. -/
def checkEnemyCollision (s : State) (now : ℤ) : State :=
  match firstCollision s.player s.allEnemies with
  | none => s
  | some enemy =>
    let floatingScoreChange : FloatingScoreChange :=
      { createdAt := now, scoreChange := -20, x := enemy.x, y := enemy.y + 100 }
    let player :=
      if s.player.score ≥ 20 then { s.player with score := s.player.score - 20 } else s.player
    { s with
      game := { s.game with
        floatingScoreChanges := s.game.floatingScoreChanges ++ [floatingScoreChange] }
      player := player.reset }

/-- The test of `checkGemCollision`. -/
def gemHits (s : State) : Prop :=
  |s.player.y - s.gem.y| = 20 ∧ |s.player.x - s.gem.x| ≤ 40 ∧ s.game.victory = false

instance (s : State) : Decidable (gemHits s) := by
  unfold gemHits; infer_instance

/-- `checkGemCollision()`; `now` is the `Date.now()` of the `FloatingScoreChange`
constructor, `r1` and `r2` are the draws of `gem.regenerate()`. -/
def checkGemCollision (s : State) (now : ℤ) (r1 r2 : ℚ) : State :=
  if gemHits s then
    let player := { s.player with score := s.player.score + s.gem.bonus }
    let floatingScoreChange : FloatingScoreChange :=
      { createdAt := now, scoreChange := s.gem.bonus, x := s.gem.x, y := s.gem.y + 100 }
    let game := { s.game with
      floatingScoreChanges := s.game.floatingScoreChanges ++ [floatingScoreChange] }
    if player.score < 100 then
      { s with player := player.reset, game := game, gem := s.gem.regenerate r1 r2 }
    else
      Game.pause { s with player := player, game := { game with victory := true } }
  else s

/-- `updateFloatingScoreChange(dt)`; `now` is the `Date.now()` read for `existTime`. -/
def updateFloatingScoreChange (g : Game) (dt : ℚ) (now : ℤ) : Game :=
  let moved := g.floatingScoreChanges.map
    (fun floatingScoreChange => { floatingScoreChange with y := floatingScoreChange.y + 30 * dt })
  match moved with
  | [] => { g with floatingScoreChanges := moved }
  | first :: rest =>
    let existTime := now - first.createdAt
    if existTime > 1000 then { g with floatingScoreChanges := rest }
    else { g with floatingScoreChanges := moved }

/-- The `allEnemies.forEach(enemy.update(dt))` of `updateEntities`: the head of `draws`
is the draw of the first enemy (`0` once the list is used up). -/
def updateEnemies (dt : ℚ) : List Enemy → List ℚ → List Enemy
  | [], _ => []
  | enemy :: rest, draws => enemy.update dt (draws.headD 0) :: updateEnemies dt rest draws.tail

/-- What one call of `update(dt)` reads from outside the state. -/
structure Tick where
  dt : ℚ
  enemyDraws : List ℚ
  nowExpire : ℤ
  nowEnemy : ℤ
  nowGem : ℤ
  gemIndexDraw : ℚ
  gemColumnDraw : ℚ
  deriving DecidableEq, Repr

/-- `updateEntities(dt)`. -/
def updateEntities (s : State) (t : Tick) : State :=
  { s with
    allEnemies := updateEnemies t.dt s.allEnemies t.enemyDraws
    game := updateFloatingScoreChange s.game t.dt t.nowExpire }

/-- `update(dt)`. -/
def update (s : State) (t : Tick) : State :=
  checkGemCollision (checkEnemyCollision (updateEntities s t) t.nowEnemy)
    t.nowGem t.gemIndexDraw t.gemColumnDraw

/-- The globals created at the end of `app.js`; `r` is the draw of `new Gem()`. -/
def init (r : ℚ) : State :=
  { player := { x := 202, y := 405, score := 0 }
    allEnemies := [⟨0, 63, 150⟩, ⟨0, 146, 150⟩, ⟨0, 229, 200⟩]
    game := { isPaused := false, victory := false, enemySpeedArray := [],
              floatingScoreChanges := [] }
    gem := Gem.new r }

/-- One thing that happens to the running game: a frame or a released key. -/
inductive Event where
  | tick (t : Tick)
  | key (keyCode : ℕ)
  deriving DecidableEq, Repr

/-- A draw of `Math.random()`. -/
def isDraw (r : ℚ) : Prop := 0 ≤ r ∧ r < 1

instance (r : ℚ) : Decidable (isDraw r) := by
  unfold isDraw; infer_instance

/-- The frames the browser can deliver: `dt ≥ 0`, draws in `[0,1)`, clock readings in
program order. -/
def Tick.ok (t : Tick) : Prop :=
  0 ≤ t.dt ∧ (∀ r ∈ t.enemyDraws, isDraw r) ∧ isDraw t.gemIndexDraw ∧ isDraw t.gemColumnDraw ∧
    t.nowExpire ≤ t.nowEnemy ∧ t.nowEnemy ≤ t.nowGem

instance (t : Tick) : Decidable t.ok := by
  unfold Tick.ok; infer_instance

/-- Events the environment can produce. -/
def Event.ok : Event → Prop
  | .tick t => t.ok
  | .key _ => True

instance (e : Event) : Decidable e.ok := by
  cases e <;> unfold Event.ok <;> infer_instance

/-- The effect of one event. -/
def step (s : State) : Event → Option State
  | .tick t => some (update s t)
  | .key keyCode => keyup s keyCode

/-- The effect of a sequence of events, oldest first. -/
def run (s : State) : List Event → Option State
  | [] => some s
  | e :: es => (step s e).bind fun s1 => run s1 es

/-- States the game can be in: reached from `init r` by events the environment can
produce. -/
def Reachable (s : State) : Prop :=
  ∃ (r : ℚ) (es : List Event), isDraw r ∧ (∀ e ∈ es, e.ok) ∧ run (init r) es = some s

/-- The cells of the canvas grid: five columns and six rows of player positions. -/
def onGrid (p : Player) : Prop :=
  (p.x = 0 ∨ p.x = 101 ∨ p.x = 202 ∨ p.x = 303 ∨ p.x = 404) ∧
  (p.y = -10 ∨ p.y = 73 ∨ p.y = 156 ∨ p.y = 239 ∨ p.y = 322 ∨ p.y = 405)

/-- Facts that every operation of the game keeps, whatever the flags are. -/
structure Base (s : State) : Prop where
  enemies_len : s.allEnemies.length = 3
  enemies : ∀ e ∈ s.allEnemies, (e.y = 63 ∨ e.y = 146 ∨ e.y = 229) ∧ 0 ≤ e.speed ∧ e.x < 505
  paused_speed : s.game.isPaused = true → ∀ e ∈ s.allEnemies, e.speed = 0
  snapshot_nonneg : ∀ v ∈ s.game.enemySpeedArray, 0 ≤ v
  snapshot_len : s.game.enemySpeedArray.length ≤ 3
  paused_snapshot : s.game.isPaused = true → s.game.enemySpeedArray.length = 3
  grid : onGrid s.player
  score : 0 ≤ s.player.score
  gem_y : s.gem.y = 10
  gem_bonus : s.gem.bonus = 10 ∨ s.gem.bonus = 15 ∨ s.gem.bonus = 20
  won_place : s.game.victory = true → s.player.y = -10 ∧ |s.player.x - s.gem.x| ≤ 40

/-- The invariant of the running game: the `Base` facts, and a won game is paused. -/
structure Inv (s : State) : Prop where
  base : Base s
  won_paused : s.game.victory = true → s.game.isPaused = true
/-- Executions with a non-decreasing clock: `c` is the latest reading of `Date.now()` so
far, and the three readings of every frame come in program order, none before `c`. -/
def clockOk : ℤ → List Event → Prop
  | _, [] => True
  | c, .tick t :: es =>
    c ≤ t.nowExpire ∧ t.nowExpire ≤ t.nowEnemy ∧ t.nowEnemy ≤ t.nowGem ∧ clockOk t.nowGem es
  | c, .key _ :: es => clockOk c es

instance decClockOk : (c : ℤ) → (es : List Event) → Decidable (clockOk c es)
  | _, [] => isTrue trivial
  | c, .tick t :: es =>
    have := decClockOk t.nowGem es
    (inferInstance : Decidable
      (c ≤ t.nowExpire ∧ t.nowExpire ≤ t.nowEnemy ∧ t.nowEnemy ≤ t.nowGem ∧ clockOk t.nowGem es))
  | c, .key _ :: es => decClockOk c es

/-- A collection in creation order, none of its entries created after the clock reading
`c`. -/
def Chrono (c : ℤ) (l : List FloatingScoreChange) : Prop :=
  l.Pairwise (fun a b => a.createdAt ≤ b.createdAt) ∧ ∀ f ∈ l, f.createdAt ≤ c

/-! ## Concrete states and event sequences used as test inputs -/

/-- A state in which the second and the third enemy both touch the player. -/
def twoHitsState : State :=
  { player := { x := 202, y := 73, score := 50 }
    allEnemies := [⟨0, 63, 150⟩, ⟨180, 63, 150⟩, ⟨210, 63, 100⟩]
    game := { isPaused := false, victory := false, enemySpeedArray := [],
              floatingScoreChanges := [] }
    gem := Gem.new 0 }

/-- A running state with the player standing on a gem worth 10, at a given score. -/
def onGemState (score : ℤ) : State :=
  { player := { x := 202, y := -10, score := score }
    allEnemies := [⟨30, 63, 150⟩, ⟨60, 146, 170⟩, ⟨90, 229, 200⟩]
    game := { isPaused := false, victory := false, enemySpeedArray := [],
              floatingScoreChanges := [] }
    gem := { sprite := "images/Gem Green.png", bonus := 10, x := 217, y := 10 } }

/-- A state paused by a victory: score 105, snapshot of the three speeds taken. -/
def wonState : State :=
  { player := { x := 202, y := -10, score := 105 }
    allEnemies := [⟨30, 63, 0⟩, ⟨60, 146, 0⟩, ⟨90, 229, 0⟩]
    game := { isPaused := true, victory := true, enemySpeedArray := [150, 170, 200],
              floatingScoreChanges := [⟨5, 10, 217, 110⟩] }
    gem := { sprite := "images/Gem Green.png", bonus := 10, x := 217, y := 10 } }

/-- The frame number `k` of a 60 Hz run: 16 ms after the previous one, orange gem on the
middle column if a gem is regenerated. -/
def frame (k : ℤ) : Event :=
  .tick { dt := 2 / 125, enemyDraws := [], nowExpire := 16 * k, nowEnemy := 16 * k,
          nowGem := 16 * k, gemIndexDraw := 9 / 10, gemColumnDraw := 1 / 2 }

/-- Five releases of the up key: from the start row to the gem row. -/
def walkToGem : List Event := List.replicate 5 (.key 38)

/-- Five gems collected (10, then four times 20: score 90), then the player walks to the
sixth gem and has not yet been seen there by a frame. -/
def ninetyAndOnGem : List Event :=
  walkToGem ++ [frame 1] ++ walkToGem ++ [frame 2] ++ walkToGem ++ [frame 3] ++
    walkToGem ++ [frame 4] ++ walkToGem ++ [frame 5] ++ walkToGem

/-- The player, with 10 points, touched by the second and the third enemy. -/
def lowScoreHitState : State :=
  { twoHitsState with player := { x := 202, y := 73, score := 10 } }

/-- A game record holding two floating score changes, created at 0 ms and at 500 ms. -/
def twoChangesGame : Game :=
  { isPaused := false, victory := false, enemySpeedArray := [],
    floatingScoreChanges := [⟨0, 10, 217, 110⟩, ⟨500, -20, 180, 163⟩] }

/-- Six gems collected without any manual pause: the sixth brings the score to 110. -/
def sixGems : List Event :=
  walkToGem ++ [frame 1] ++ walkToGem ++ [frame 2] ++ walkToGem ++ [frame 3] ++
    walkToGem ++ [frame 4] ++ walkToGem ++ [frame 5] ++ walkToGem ++ [frame 6]

/-- The state the game is in after `sixGems`: won, and paused by the victory. -/
def wonByPlay : State := (run (init (1/2)) sixGems).getD (init (1/2))

/-- A frame that comes late, at 1100 ms, 1068 ms after the frame at 32 ms. -/
def staleFrame : Event :=
  .tick { dt := 267 / 250, enemyDraws := [], nowExpire := 1100, nowEnemy := 1100,
          nowGem := 1100, gemIndexDraw := 9 / 10, gemColumnDraw := 1 / 2 }

/-- Two gems collected in the frames at 16 ms and 32 ms. -/
def twoGems : List Event :=
  walkToGem ++ [frame 1] ++ walkToGem ++ [frame 2]

/-- A state paused by a victory whose snapshot holds an entry for the first enemy only. -/
def shortSnapshotState : State :=
  { wonState with game := { wonState.game with enemySpeedArray := [150] } }

/-- Two releases of the up key: the player stands at `(202, 239)`, on the row of the third
enemy. -/
def twoUps : List Event := [.key 38, .key 38]

/-- The state after `twoUps` from the initial state. -/
def besideThirdEnemy : State := (run (init (1/2)) twoUps).getD (init (1/2))

/-- A frame that comes one second after the start: the third enemy, at speed 200, reaches
`x = 200`. -/
def oneSecondFrame : Tick :=
  { dt := 1, enemyDraws := [], nowExpire := 1000, nowEnemy := 1000, nowGem := 1000,
    gemIndexDraw := 0, gemColumnDraw := 0 }

/-! ## Helper lemmas -/

theorem firstCollision_none (player : Player) (l : List Enemy)
    (h : ∀ e ∈ l, ¬ enemyHits player e) : firstCollision player l = none := by
  induction l with
  | nil => rfl
  | cons a l ih =>
    have ha : ¬ enemyHits player a := h a (List.mem_cons_self a l)
    have hl : ∀ e ∈ l, ¬ enemyHits player e := fun e he => h e (List.mem_cons_of_mem a he)
    simp [firstCollision, ha, ih hl]

theorem firstCollision_first (player : Player) (l : List Enemy)
    (h : ∃ e ∈ l, enemyHits player e) :
    ∃ pre e post, l = pre ++ e :: post ∧ (∀ e1 ∈ pre, ¬ enemyHits player e1) ∧
      enemyHits player e ∧ firstCollision player l = some e := by
  induction l with
  | nil => simp at h
  | cons a l ih =>
    by_cases ha : enemyHits player a
    · exact ⟨[], a, l, rfl, by simp, ha, by simp [firstCollision, ha]⟩
    · have hl : ∃ e ∈ l, enemyHits player e := by
        obtain ⟨e, he, hh⟩ := h
        rcases List.mem_cons.mp he with rfl | he1
        · exact absurd hh ha
        · exact ⟨e, he1, hh⟩
      obtain ⟨pre, e, post, hsplit, hpre, he, hf⟩ := ih hl
      refine ⟨a :: pre, e, post, by simp [hsplit], ?_, he, by simp [firstCollision, ha, hf]⟩
      intro e1 he1
      rcases List.mem_cons.mp he1 with rfl | h2
      · exact ha
      · exact hpre e1 h2

theorem recordSpeeds_getElem (l : List Enemy) (arr : List ℚ) (i : ℕ) (e : Enemy)
    (h : l[i]? = some e) : (recordSpeeds l arr)[i]? = some e.speed := by
  induction l generalizing arr i with
  | nil => simp at h
  | cons a l ih =>
    cases arr with
    | nil =>
      cases i with
      | zero => simp at h; simp [recordSpeeds, h]
      | succ i => simp at h; simpa [recordSpeeds] using ih [] i h
    | cons v arr =>
      cases i with
      | zero => simp at h; simp [recordSpeeds, h]
      | succ i => simp at h; simpa [recordSpeeds] using ih arr i h

theorem recordSpeeds_length (l : List Enemy) (arr : List ℚ) :
    l.length ≤ (recordSpeeds l arr).length := by
  induction l generalizing arr with
  | nil => simp
  | cons a l ih =>
    cases arr with
    | nil => simpa [recordSpeeds] using ih []
    | cons v arr => simpa [recordSpeeds] using ih arr

theorem restored_nil (arr : List ℚ) : numericEnemies (restoreSpeeds [] arr) = some [] := rfl

theorem restored_cons_nil (e : Enemy) (es : List Enemy) :
    numericEnemies (restoreSpeeds (e :: es) []) = none := rfl

theorem restored_cons_cons (e : Enemy) (es : List Enemy) (v : ℚ) (arr : List ℚ) :
    numericEnemies (restoreSpeeds (e :: es) (v :: arr)) =
      (numericEnemies (restoreSpeeds es arr)).map
        (fun rest => { x := e.x, y := e.y, speed := v } :: rest) := by
  simp only [restoreSpeeds, numericEnemies, List.head?_cons, List.tail_cons]
  cases numericEnemies (restoreSpeeds es arr) <;> rfl

theorem restoreSpeeds_length (l : List Enemy) (arr : List ℚ) :
    (restoreSpeeds l arr).length = l.length := by
  induction l generalizing arr with
  | nil => rfl
  | cons a l ih => simp [restoreSpeeds, ih]

theorem restoreSpeeds_getElem (l : List Enemy) (arr : List ℚ) (i : ℕ) (e : Enemy)
    (h : l[i]? = some e) :
    (restoreSpeeds l arr)[i]? = some { x := e.x, y := e.y, speed := arr[i]? } := by
  induction l generalizing arr i with
  | nil => simp at h
  | cons a l ih =>
    cases i with
    | zero =>
      simp only [List.getElem?_cons_zero, Option.some.injEq] at h
      subst h
      cases arr <;> simp [restoreSpeeds]
    | succ i =>
      simp only [List.getElem?_cons_succ] at h
      have hrec := ih arr.tail i h
      cases arr with
      | nil => simpa [restoreSpeeds] using hrec
      | cons v arr => simpa [restoreSpeeds] using hrec

theorem restoreSpeeds_recordSpeeds (l : List Enemy) (arr : List ℚ) :
    numericEnemies
        (restoreSpeeds (l.map fun enemy => { enemy with speed := 0 }) (recordSpeeds l arr))
      = some l := by
  induction l generalizing arr with
  | nil => rfl
  | cons a l ih =>
    cases arr with
    | nil => simp [recordSpeeds, restored_cons_cons, ih]
    | cons v arr => simp [recordSpeeds, restored_cons_cons, ih]

theorem restoreSpeeds_some (l : List Enemy) (arr : List ℚ) (h : l.length ≤ arr.length) :
    ∃ l1, numericEnemies (restoreSpeeds l arr) = some l1 ∧ l1.length = l.length ∧
      ∀ (i : ℕ) (e : Enemy), l[i]? = some e →
        ∃ v, arr[i]? = some v ∧ l1[i]? = some { e with speed := v } := by
  induction l generalizing arr with
  | nil => exact ⟨[], by simp [restored_nil]⟩
  | cons a l ih =>
    cases arr with
    | nil => simp at h
    | cons v arr =>
      have hl : l.length ≤ arr.length := by simpa using h
      obtain ⟨l1, h1, hlen, hidx⟩ := ih arr hl
      refine ⟨{ a with speed := v } :: l1, by simp [restored_cons_cons, h1], by simp [hlen], ?_⟩
      intro i e hi
      cases i with
      | zero =>
        simp at hi
        exact ⟨v, by simp, by simp [hi]⟩
      | succ i =>
        simp at hi
        simpa using hidx i e hi

theorem restoreSpeeds_none (l : List Enemy) (arr : List ℚ) (h : arr.length < l.length) :
    numericEnemies (restoreSpeeds l arr) = none := by
  induction l generalizing arr with
  | nil => simp at h
  | cons a l ih =>
    cases arr with
    | nil => rfl
    | cons v arr =>
      have hl : arr.length < l.length := by simpa using h
      simp [restored_cons_cons, ih arr hl]

theorem continue_toState (s : State) :
    (Game.continue s).toState =
      (numericEnemies (restoreSpeeds s.allEnemies s.game.enemySpeedArray)).map fun enemies =>
        if s.game.victory then
          { s with
            allEnemies := enemies
            player := { s.player.reset with score := 0 }
            game := { s.game with isPaused := false, victory := false } }
        else
          { s with
            allEnemies := enemies
            game := { s.game with isPaused := false } } := by
  unfold Game.continue Resumed.toState
  by_cases hv : s.game.victory = true
  · simp only [hv, if_true]
  · have hv0 : s.game.victory = false := by simpa using hv
    simp only [hv0, Bool.false_eq_true, if_false]

theorem continue_allEnemies (s : State) :
    (Game.continue s).allEnemies = restoreSpeeds s.allEnemies s.game.enemySpeedArray := by
  unfold Game.continue
  split_ifs <;> rfl

theorem restoreSpeeds_numeric (l : List Enemy) (arr : List ℚ) (h : l.length ≤ arr.length) :
    ∀ e ∈ restoreSpeeds l arr, ∃ v, e.speed = some v := by
  induction l generalizing arr with
  | nil => intro e he; simp [restoreSpeeds] at he
  | cons a l ih =>
    cases arr with
    | nil => simp at h
    | cons v arr =>
      have hl : l.length ≤ arr.length := by simpa using h
      intro e he
      simp only [restoreSpeeds, List.head?_cons, List.tail_cons, List.mem_cons] at he
      rcases he with rfl | he
      · exact ⟨v, rfl⟩
      · exact ih arr hl e he

theorem floor_mul_draw (r : ℚ) (n : ℕ) (h0 : 0 ≤ r) (h1 : r < 1) :
    0 ≤ ⌊r * n⌋ ∧ ⌊r * n⌋ ≤ (n : ℤ) := by
  have hn : (0 : ℚ) ≤ n := Nat.cast_nonneg n
  constructor
  · exact Int.floor_nonneg.mpr (mul_nonneg h0 hn)
  · have hle : r * n ≤ ((n : ℤ) : ℚ) := by
      have : r * n ≤ 1 * n := mul_le_mul_of_nonneg_right h1.le hn
      simpa using this
    exact Int.cast_le.mp ((Int.floor_le _).trans hle)

theorem floor_mul_draw_lt (r : ℚ) (n : ℕ) (hn : 0 < n) (h0 : 0 ≤ r) (h1 : r < 1) :
    0 ≤ ⌊r * n⌋ ∧ ⌊r * n⌋ < (n : ℤ) := by
  have hn0 : (0 : ℚ) < n := Nat.cast_pos.mpr hn
  refine ⟨(floor_mul_draw r n h0 h1).1, ?_⟩
  apply Int.floor_lt.mpr
  have : r * n < 1 * n := mul_lt_mul_of_pos_right h1 hn0
  simpa using this

/-! ## Enemy collision -/

/-- C1: in every state in which some enemy has `|enemy.y - player.y| = 10` and
`|enemy.x - player.x| ≤ 40`, `checkEnemyCollision` puts the player at `(202, 405)` and appends
exactly one `FloatingScoreChange`, of value `-20` at `(e.x, e.y + 100)`, where `e` is the first
such enemy of `allEnemies` (no enemy before it qualifies); the enemies, the gem, the pause and
victory flags and the speed snapshot are unchanged. -/
theorem checkEnemyCollision_first_hit (s : State) (now : ℤ)
    (h : ∃ e ∈ s.allEnemies, |e.y - s.player.y| = 10 ∧ |e.x - s.player.x| ≤ 40) :
    ∃ pre e post, s.allEnemies = pre ++ e :: post ∧
      (∀ e1 ∈ pre, ¬ (|e1.y - s.player.y| = 10 ∧ |e1.x - s.player.x| ≤ 40)) ∧
      (|e.y - s.player.y| = 10 ∧ |e.x - s.player.x| ≤ 40) ∧
      (checkEnemyCollision s now).player.x = 202 ∧
      (checkEnemyCollision s now).player.y = 405 ∧
      (checkEnemyCollision s now).game.floatingScoreChanges =
        s.game.floatingScoreChanges ++
          [{ createdAt := now, scoreChange := -20, x := e.x, y := e.y + 100 }] ∧
      (checkEnemyCollision s now).allEnemies = s.allEnemies ∧
      (checkEnemyCollision s now).gem = s.gem ∧
      (checkEnemyCollision s now).game.isPaused = s.game.isPaused ∧
      (checkEnemyCollision s now).game.victory = s.game.victory ∧
      (checkEnemyCollision s now).game.enemySpeedArray = s.game.enemySpeedArray := by
  obtain ⟨pre, e, post, hsplit, hpre, he, hf⟩ := firstCollision_first s.player s.allEnemies h
  refine ⟨pre, e, post, hsplit, hpre, he, ?_⟩
  simp [checkEnemyCollision, hf, Player.reset]

/-- Witness of C1: with two touching enemies, the one at `x = 180` is reported. -/
theorem checkEnemyCollision_first_hit_witness :
    ∃ pre e post, twoHitsState.allEnemies = pre ++ e :: post ∧
      (∀ e1 ∈ pre, ¬ (|e1.y - twoHitsState.player.y| = 10 ∧
        |e1.x - twoHitsState.player.x| ≤ 40)) ∧
      (|e.y - twoHitsState.player.y| = 10 ∧ |e.x - twoHitsState.player.x| ≤ 40) ∧
      (checkEnemyCollision twoHitsState 7).player.x = 202 ∧
      (checkEnemyCollision twoHitsState 7).player.y = 405 ∧
      (checkEnemyCollision twoHitsState 7).game.floatingScoreChanges =
        twoHitsState.game.floatingScoreChanges ++
          [{ createdAt := 7, scoreChange := -20, x := e.x, y := e.y + 100 }] ∧
      (checkEnemyCollision twoHitsState 7).allEnemies = twoHitsState.allEnemies ∧
      (checkEnemyCollision twoHitsState 7).gem = twoHitsState.gem ∧
      (checkEnemyCollision twoHitsState 7).game.isPaused = twoHitsState.game.isPaused ∧
      (checkEnemyCollision twoHitsState 7).game.victory = twoHitsState.game.victory ∧
      (checkEnemyCollision twoHitsState 7).game.enemySpeedArray =
        twoHitsState.game.enemySpeedArray :=
  checkEnemyCollision_first_hit twoHitsState 7
    ⟨⟨210, 63, 100⟩, by simp [twoHitsState], by norm_num [twoHitsState]⟩

/-- C2: when `checkEnemyCollision` finds a touching enemy the score drops by 20 if it was at
least 20 and is left as it was if it was below 20; when no enemy touches the player the score
is unchanged. -/
theorem checkEnemyCollision_score (s : State) (now : ℤ) :
    ((∃ e ∈ s.allEnemies, |e.y - s.player.y| = 10 ∧ |e.x - s.player.x| ≤ 40) →
      20 ≤ s.player.score →
      (checkEnemyCollision s now).player.score = s.player.score - 20) ∧
    ((∃ e ∈ s.allEnemies, |e.y - s.player.y| = 10 ∧ |e.x - s.player.x| ≤ 40) →
      s.player.score < 20 →
      (checkEnemyCollision s now).player.score = s.player.score) ∧
    ((¬ ∃ e ∈ s.allEnemies, |e.y - s.player.y| = 10 ∧ |e.x - s.player.x| ≤ 40) →
      (checkEnemyCollision s now).player.score = s.player.score) := by
  refine ⟨?_, ?_, ?_⟩
  · intro h hs
    obtain ⟨pre, e, post, -, -, -, hf⟩ := firstCollision_first s.player s.allEnemies h
    simp [checkEnemyCollision, hf, Player.reset, hs]
  · intro h hs
    obtain ⟨pre, e, post, -, -, -, hf⟩ := firstCollision_first s.player s.allEnemies h
    have hs1 : ¬ 20 ≤ s.player.score := not_le.mpr hs
    simp [checkEnemyCollision, hf, Player.reset, hs1]
  · intro h
    have hn : ∀ e ∈ s.allEnemies, ¬ enemyHits s.player e := fun e he hh => h ⟨e, he, hh⟩
    simp [checkEnemyCollision, firstCollision_none s.player s.allEnemies hn]

/-- Witness of C2: a collision at score 50 leaves 30, a collision at score 10 leaves 10. -/
theorem checkEnemyCollision_score_witness :
    (checkEnemyCollision twoHitsState 7).player.score = 50 - 20 ∧
    (checkEnemyCollision
      { twoHitsState with player := { twoHitsState.player with score := 10 } } 7).player.score
      = 10 :=
  ⟨(checkEnemyCollision_score twoHitsState 7).1
      ⟨⟨210, 63, 100⟩, by simp [twoHitsState], by norm_num [twoHitsState]⟩
      (by simp [twoHitsState]),
   (checkEnemyCollision_score
      { twoHitsState with player := { twoHitsState.player with score := 10 } } 7).2.1
      ⟨⟨210, 63, 100⟩, by simp [twoHitsState], by norm_num [twoHitsState]⟩
      (by simp [twoHitsState])⟩

/-! ## Gem collision -/

/-- C3: with `victory` false, `|player.y - gem.y| = 20`, `|player.x - gem.x| ≤ 40` and
`score + gem.bonus < 100`, `checkGemCollision` adds the bonus to the score, appends one
`FloatingScoreChange` carrying the collected bonus at `(gem.x, gem.y + 100)` of the collected
gem, puts the player at `(202, 405)`, regenerates the gem, and leaves `victory` false and
`isPaused`, the speed snapshot and every enemy as they were. -/
theorem checkGemCollision_below_threshold (s : State) (now : ℤ) (r1 r2 : ℚ)
    (hv : s.game.victory = false) (hy : |s.player.y - s.gem.y| = 20)
    (hx : |s.player.x - s.gem.x| ≤ 40) (hs : s.player.score + s.gem.bonus < 100) :
    (checkGemCollision s now r1 r2).player.score = s.player.score + s.gem.bonus ∧
    (checkGemCollision s now r1 r2).game.floatingScoreChanges =
      s.game.floatingScoreChanges ++
        [{ createdAt := now, scoreChange := s.gem.bonus, x := s.gem.x, y := s.gem.y + 100 }] ∧
    (checkGemCollision s now r1 r2).player.x = 202 ∧
    (checkGemCollision s now r1 r2).player.y = 405 ∧
    (checkGemCollision s now r1 r2).gem = s.gem.regenerate r1 r2 ∧
    (checkGemCollision s now r1 r2).game.victory = false ∧
    (checkGemCollision s now r1 r2).game.isPaused = s.game.isPaused ∧
    (checkGemCollision s now r1 r2).game.enemySpeedArray = s.game.enemySpeedArray ∧
    (checkGemCollision s now r1 r2).allEnemies = s.allEnemies := by
  have hg : gemHits s := ⟨hy, hx, hv⟩
  simp [checkGemCollision, hg, hs, Player.reset, hv]

/-- Witness of C3: collecting a gem worth 10 at score 30. -/
theorem checkGemCollision_below_threshold_witness :
    (checkGemCollision (onGemState 30) 5 (1/2) (1/2)).player.score = 30 + 10 ∧
    (checkGemCollision (onGemState 30) 5 (1/2) (1/2)).game.floatingScoreChanges =
      [] ++ [{ createdAt := 5, scoreChange := 10, x := 217, y := 10 + 100 }] ∧
    (checkGemCollision (onGemState 30) 5 (1/2) (1/2)).player.x = 202 ∧
    (checkGemCollision (onGemState 30) 5 (1/2) (1/2)).player.y = 405 ∧
    (checkGemCollision (onGemState 30) 5 (1/2) (1/2)).gem
      = (onGemState 30).gem.regenerate (1/2) (1/2) ∧
    (checkGemCollision (onGemState 30) 5 (1/2) (1/2)).game.victory = false ∧
    (checkGemCollision (onGemState 30) 5 (1/2) (1/2)).game.isPaused = false ∧
    (checkGemCollision (onGemState 30) 5 (1/2) (1/2)).game.enemySpeedArray = [] ∧
    (checkGemCollision (onGemState 30) 5 (1/2) (1/2)).allEnemies
      = (onGemState 30).allEnemies :=
  checkGemCollision_below_threshold (onGemState 30) 5 (1/2) (1/2) rfl
    (by norm_num [onGemState]) (by norm_num [onGemState]) (by norm_num [onGemState])

/-- C4: with `victory` false, `|player.y - gem.y| = 20`, `|player.x - gem.x| ≤ 40` and
`score + gem.bonus ≥ 100`, `checkGemCollision` adds the bonus to the score, sets `victory` and
`isPaused`, stores the speed every enemy had before the call in `enemySpeedArray` at the
enemy's index, sets every enemy's speed to 0 (positions kept), appends the floating score
change, and leaves the player's position and the gem as they were. -/
theorem checkGemCollision_victory (s : State) (now : ℤ) (r1 r2 : ℚ)
    (hv : s.game.victory = false) (hy : |s.player.y - s.gem.y| = 20)
    (hx : |s.player.x - s.gem.x| ≤ 40) (hs : 100 ≤ s.player.score + s.gem.bonus) :
    (checkGemCollision s now r1 r2).player.score = s.player.score + s.gem.bonus ∧
    (checkGemCollision s now r1 r2).game.victory = true ∧
    (checkGemCollision s now r1 r2).game.isPaused = true ∧
    (∀ (i : ℕ) (e : Enemy), s.allEnemies[i]? = some e →
      (checkGemCollision s now r1 r2).game.enemySpeedArray[i]? = some e.speed) ∧
    (checkGemCollision s now r1 r2).allEnemies =
      s.allEnemies.map (fun e => { x := e.x, y := e.y, speed := 0 }) ∧
    (checkGemCollision s now r1 r2).game.floatingScoreChanges =
      s.game.floatingScoreChanges ++
        [{ createdAt := now, scoreChange := s.gem.bonus, x := s.gem.x, y := s.gem.y + 100 }] ∧
    (checkGemCollision s now r1 r2).player.x = s.player.x ∧
    (checkGemCollision s now r1 r2).player.y = s.player.y ∧
    (checkGemCollision s now r1 r2).gem = s.gem := by
  have hg : gemHits s := ⟨hy, hx, hv⟩
  have hs1 : ¬ s.player.score + s.gem.bonus < 100 := not_lt.mpr hs
  have hrec := recordSpeeds_getElem s.allEnemies s.game.enemySpeedArray
  simp only [checkGemCollision, hg, hs1, if_true, if_false, Game.pause]
  exact ⟨trivial, trivial, trivial, hrec, trivial, trivial, trivial, trivial, trivial⟩

/-- Witness of C4: the scenario of the specification, score 95 and a gem worth 10. -/
theorem checkGemCollision_victory_witness :
    (checkGemCollision (onGemState 95) 5 0 0).player.score = 95 + 10 ∧
    (checkGemCollision (onGemState 95) 5 0 0).game.victory = true ∧
    (checkGemCollision (onGemState 95) 5 0 0).game.isPaused = true ∧
    (∀ (i : ℕ) (e : Enemy), (onGemState 95).allEnemies[i]? = some e →
      (checkGemCollision (onGemState 95) 5 0 0).game.enemySpeedArray[i]? = some e.speed) ∧
    (checkGemCollision (onGemState 95) 5 0 0).allEnemies =
      (onGemState 95).allEnemies.map (fun e => { x := e.x, y := e.y, speed := 0 }) ∧
    (checkGemCollision (onGemState 95) 5 0 0).game.floatingScoreChanges =
      [] ++ [{ createdAt := 5, scoreChange := 10, x := 217, y := 10 + 100 }] ∧
    (checkGemCollision (onGemState 95) 5 0 0).player.x = 202 ∧
    (checkGemCollision (onGemState 95) 5 0 0).player.y = -10 ∧
    (checkGemCollision (onGemState 95) 5 0 0).gem = (onGemState 95).gem :=
  checkGemCollision_victory (onGemState 95) 5 0 0 rfl
    (by norm_num [onGemState]) (by norm_num [onGemState]) (by norm_num [onGemState])

/-! ## Pause and resume -/

/-- C5: from every state with `isPaused` false and `victory` false, `handleInput('togglePause')`
pauses the game and a second `handleInput('togglePause')` resumes it, and after the two calls
every enemy (position and speed), the player (position and score), the gem, both flags and the
floating score changes are what they were before the first call. -/
theorem togglePause_twice_roundtrip (s : State)
    (hp : s.game.isPaused = false) (hv : s.game.victory = false) :
    ∃ s1 s2, Player.handleInput s (some "togglePause") = some s1 ∧
      s1.game.isPaused = true ∧
      Player.handleInput s1 (some "togglePause") = some s2 ∧
      s2.allEnemies = s.allEnemies ∧ s2.player = s.player ∧ s2.gem = s.gem ∧
      s2.game.isPaused = s.game.isPaused ∧ s2.game.victory = s.game.victory ∧
      s2.game.floatingScoreChanges = s.game.floatingScoreChanges := by
  have hrs := restoreSpeeds_recordSpeeds s.allEnemies s.game.enemySpeedArray
  refine ⟨Game.pause s, { s with game := { s.game with
      enemySpeedArray := recordSpeeds s.allEnemies s.game.enemySpeedArray } }, ?_, ?_, ?_, ?_⟩
  · simp [Player.handleInput, hp]
  · simp [Game.pause]
  · simp [Player.handleInput, Game.pause, Game.continue, Resumed.toState, hrs, hv, hp]
  · simp

/-- Witness of C5: pausing and resuming the initial state. -/
theorem togglePause_twice_roundtrip_witness :
    ∃ s1 s2, Player.handleInput (init 0) (some "togglePause") = some s1 ∧
      s1.game.isPaused = true ∧
      Player.handleInput s1 (some "togglePause") = some s2 ∧
      s2.allEnemies = (init 0).allEnemies ∧ s2.player = (init 0).player ∧
      s2.gem = (init 0).gem ∧
      s2.game.isPaused = (init 0).game.isPaused ∧ s2.game.victory = (init 0).game.victory ∧
      s2.game.floatingScoreChanges = (init 0).game.floatingScoreChanges :=
  togglePause_twice_roundtrip (init 0) rfl rfl

/-- C6: in every state with `isPaused` and `victory` both true, `handleInput('togglePause')`
runs `Game.continue`, which gives every enemy the entry of `enemySpeedArray` at its index as
its speed (position kept; `undefined` where the array has no entry), clears `isPaused`, puts
the player at `(202, 405)`, sets the score to 0 and clears `victory`; the gem, the floating
score changes and the snapshot are left as they were. When the array has an entry at every
enemy index, every restored speed is a number and `handleInput` returns that state. -/
theorem togglePause_after_victory (s : State)
    (hp : s.game.isPaused = true) (hv : s.game.victory = true) :
    Player.handleInput s (some "togglePause") = (Game.continue s).toState ∧
    (Game.continue s).allEnemies.length = s.allEnemies.length ∧
    (∀ (i : ℕ) (e : Enemy), s.allEnemies[i]? = some e →
      (Game.continue s).allEnemies[i]? =
        some { x := e.x, y := e.y, speed := s.game.enemySpeedArray[i]? }) ∧
    (Game.continue s).game.isPaused = false ∧
    (Game.continue s).player.x = 202 ∧ (Game.continue s).player.y = 405 ∧
    (Game.continue s).player.score = 0 ∧
    (Game.continue s).game.victory = false ∧
    (Game.continue s).gem = s.gem ∧
    (Game.continue s).game.floatingScoreChanges = s.game.floatingScoreChanges ∧
    (Game.continue s).game.enemySpeedArray = s.game.enemySpeedArray ∧
    (s.allEnemies.length ≤ s.game.enemySpeedArray.length →
      ∃ s1, Player.handleInput s (some "togglePause") = some s1 ∧
        s1.allEnemies.length = s.allEnemies.length ∧
        (∀ (i : ℕ) (e : Enemy), s.allEnemies[i]? = some e →
          ∃ v, s.game.enemySpeedArray[i]? = some v ∧
            s1.allEnemies[i]? = some { x := e.x, y := e.y, speed := v }) ∧
        s1.game.isPaused = false ∧
        s1.player.x = 202 ∧ s1.player.y = 405 ∧ s1.player.score = 0 ∧
        s1.game.victory = false ∧
        s1.gem = s.gem ∧
        s1.game.floatingScoreChanges = s.game.floatingScoreChanges ∧
        s1.game.enemySpeedArray = s.game.enemySpeedArray) := by
  have hin : Player.handleInput s (some "togglePause") = (Game.continue s).toState := by
    simp [Player.handleInput, hp]
  refine ⟨hin, ?_, ?_, ?_, ?_, ?_, ?_, ?_, ?_, ?_, ?_, ?_⟩
  · rw [continue_allEnemies, restoreSpeeds_length]
  · intro i e hi
    rw [continue_allEnemies]
    exact restoreSpeeds_getElem s.allEnemies s.game.enemySpeedArray i e hi
  · simp [Game.continue, hv]
  · simp [Game.continue, hv, Player.reset]
  · simp [Game.continue, hv, Player.reset]
  · simp [Game.continue, hv]
  · simp [Game.continue, hv]
  · simp [Game.continue, hv]
  · simp [Game.continue, hv]
  · simp [Game.continue, hv]
  · intro hlen
    obtain ⟨l1, h1, hl1, hidx⟩ := restoreSpeeds_some s.allEnemies s.game.enemySpeedArray hlen
    refine ⟨{ s with
        allEnemies := l1
        player := { s.player.reset with score := 0 }
        game := { s.game with isPaused := false, victory := false } }, ?_, hl1, hidx, ?_⟩
    · rw [hin, continue_toState]
      simp [hv, h1]
    · simp [Player.reset]

/-- Witness of C6: resuming `shortSnapshotState`, whose snapshot has one entry for three
enemies, restores 150 to the first enemy and `undefined` to the other two and completes the
rest of the transition; resuming `wonState`, whose snapshot is complete, returns a state. -/
theorem togglePause_after_victory_witness :
    ((Game.continue shortSnapshotState).allEnemies =
        [⟨30, 63, some 150⟩, ⟨60, 146, none⟩, ⟨90, 229, none⟩] ∧
      (Game.continue shortSnapshotState).game.isPaused = false ∧
      (Game.continue shortSnapshotState).player.x = 202 ∧
      (Game.continue shortSnapshotState).player.y = 405 ∧
      (Game.continue shortSnapshotState).player.score = 0 ∧
      (Game.continue shortSnapshotState).game.victory = false) ∧
    (∃ s1, Player.handleInput wonState (some "togglePause") = some s1 ∧
      s1.allEnemies.length = wonState.allEnemies.length ∧
      (∀ (i : ℕ) (e : Enemy), wonState.allEnemies[i]? = some e →
        ∃ v, wonState.game.enemySpeedArray[i]? = some v ∧
          s1.allEnemies[i]? = some { x := e.x, y := e.y, speed := v }) ∧
      s1.game.isPaused = false ∧
      s1.player.x = 202 ∧ s1.player.y = 405 ∧ s1.player.score = 0 ∧
      s1.game.victory = false ∧
      s1.gem = wonState.gem ∧
      s1.game.floatingScoreChanges = wonState.game.floatingScoreChanges ∧
      s1.game.enemySpeedArray = wonState.game.enemySpeedArray) :=
  ⟨⟨by decide!,
    (togglePause_after_victory shortSnapshotState rfl rfl).2.2.2.1,
    (togglePause_after_victory shortSnapshotState rfl rfl).2.2.2.2.1,
    (togglePause_after_victory shortSnapshotState rfl rfl).2.2.2.2.2.1,
    (togglePause_after_victory shortSnapshotState rfl rfl).2.2.2.2.2.2.1,
    (togglePause_after_victory shortSnapshotState rfl rfl).2.2.2.2.2.2.2.1⟩,
   (togglePause_after_victory wonState rfl rfl).2.2.2.2.2.2.2.2.2.2.2 (by simp [wonState])⟩

/-! ## Entity updates -/

/-- C8: `Enemy.update(dt)` leaves `y` unchanged; if `x + dt * speed < 505` the new `x` is
`x + dt * speed` and the speed is unchanged; if `x + dt * speed ≥ 505` the new `x` is `-101` and
the speed is redrawn as `⌊r * 201⌋ + 150`. This holds for every `dt` and speed, so in
particular for `dt ≥ 0` and speed `≥ 0`. -/
theorem Enemy_update_moves_or_wraps (e : Enemy) (dt r : ℚ) :
    (e.update dt r).y = e.y ∧
    (e.x + dt * e.speed < 505 →
      (e.update dt r).x = e.x + dt * e.speed ∧ (e.update dt r).speed = e.speed) ∧
    (e.x + dt * e.speed ≥ 505 →
      (e.update dt r).x = -101 ∧ (e.update dt r).speed = ((⌊r * 201⌋ + 150 : ℤ) : ℚ)) := by
  refine ⟨?_, ?_, ?_⟩
  · simp only [Enemy.update]
    split_ifs <;> rfl
  · intro h
    have h1 : ¬ e.x + dt * e.speed ≥ 505 := not_le.mpr h
    simp [Enemy.update, h1]
  · intro h
    simp [Enemy.update, h]

/-- Witness of C8: an enemy at `x = 100` with speed 150 moves 15 px in a tenth of a second,
and an enemy at `x = 500` is sent back to `x = -101`. -/
theorem Enemy_update_moves_or_wraps_witness :
    ((Enemy.update ⟨100, 63, 150⟩ (1/10) (1/2)).x = 100 + 1/10 * 150 ∧
      (Enemy.update ⟨100, 63, 150⟩ (1/10) (1/2)).speed = 150) ∧
    ((Enemy.update ⟨500, 63, 150⟩ (1/10) (1/2)).x = -101 ∧
      (Enemy.update ⟨500, 63, 150⟩ (1/10) (1/2)).speed = ((⌊(1/2 : ℚ) * 201⌋ + 150 : ℤ) : ℚ)) :=
  ⟨(Enemy_update_moves_or_wraps ⟨100, 63, 150⟩ (1/10) (1/2)).2.1 (by norm_num),
   (Enemy_update_moves_or_wraps ⟨500, 63, 150⟩ (1/10) (1/2)).2.2 (by norm_num)⟩

/-- C9, as stated, fails: the draw `999/1000` lies in `[0,1)`, the enemy at `x = 500` with
speed 150 wraps after a tenth of a second, and its new speed is `⌊200.799⌋ + 150 = 350`, which
is not below 350. -/
theorem Enemy_update_speed_reaches_350 :
    (0 : ℚ) ≤ 999 / 1000 ∧ (999 / 1000 : ℚ) < 1 ∧
    (500 : ℚ) + 1 / 10 * 150 ≥ 505 ∧
    (Enemy.update ⟨500, 63, 150⟩ (1/10) (999/1000)).speed = 350 ∧
    ¬ (Enemy.update ⟨500, 63, 150⟩ (1/10) (999/1000)).speed < 350 := by
  have h : (Enemy.update ⟨500, 63, 150⟩ (1/10) (999/1000)).speed = 350 := by decide!
  refine ⟨by norm_num, by norm_num, by norm_num, h, ?_⟩
  rw [h]; norm_num

/-- C9, amended: when `Enemy.update` wraps an enemy (`x + dt * speed ≥ 505`), for every draw
`r` in `[0,1)` the new speed is an integer `v` with `150 ≤ v ≤ 350`. -/
theorem Enemy_update_wrap_speed_range (e : Enemy) (dt r : ℚ)
    (h0 : 0 ≤ r) (h1 : r < 1) (hw : e.x + dt * e.speed ≥ 505) :
    ∃ v : ℤ, (e.update dt r).speed = (v : ℚ) ∧ 150 ≤ v ∧ v ≤ 350 := by
  have hf := floor_mul_draw r 201 h0 h1
  have hf0 : 0 ≤ ⌊r * 201⌋ := by simpa using hf.1
  have hf1 : ⌊r * 201⌋ ≤ 201 := by simpa using hf.2
  have hlt := (floor_mul_draw_lt r 201 (by norm_num) h0 h1).2
  have hf2 : ⌊r * 201⌋ < 201 := by simpa using hlt
  refine ⟨⌊r * 201⌋ + 150, ?_, by omega, by omega⟩
  simp [Enemy.update, hw]

/-- Witness of the amended C9: a wrap with the draw `1/2`. -/
theorem Enemy_update_wrap_speed_range_witness :
    ∃ v : ℤ, (Enemy.update ⟨500, 63, 150⟩ (1/10) (1/2)).speed = (v : ℚ) ∧ 150 ≤ v ∧ v ≤ 350 :=
  Enemy_update_wrap_speed_range ⟨500, 63, 150⟩ (1/10) (1/2) (by norm_num) (by norm_num)
    (by norm_num)

/-- C10: for every pair of draws in `[0,1)`, `Gem.regenerate` leaves `gem.y` unchanged, puts
`gem.x` on one of the five columns 15, 116, 217, 318, 419, and sets sprite and bonus to one of
the three pairs (Gem Green, 10), (Gem Blue, 15), (Gem Orange, 20); so the bonus is 10, 15 or
20, and two regenerated gems with the same sprite have the same bonus. -/
theorem Gem_regenerate_range (g : Gem) (r1 r2 : ℚ)
    (h1 : 0 ≤ r1 ∧ r1 < 1) (h2 : 0 ≤ r2 ∧ r2 < 1) :
    (g.regenerate r1 r2).y = g.y ∧
    ((g.regenerate r1 r2).x = 15 ∨ (g.regenerate r1 r2).x = 116 ∨
      (g.regenerate r1 r2).x = 217 ∨ (g.regenerate r1 r2).x = 318 ∨
      (g.regenerate r1 r2).x = 419) ∧
    (((g.regenerate r1 r2).sprite = "images/Gem Green.png" ∧ (g.regenerate r1 r2).bonus = 10) ∨
      ((g.regenerate r1 r2).sprite = "images/Gem Blue.png" ∧ (g.regenerate r1 r2).bonus = 15) ∨
      ((g.regenerate r1 r2).sprite = "images/Gem Orange.png" ∧
        (g.regenerate r1 r2).bonus = 20)) ∧
    ((g.regenerate r1 r2).bonus = 10 ∨ (g.regenerate r1 r2).bonus = 15 ∨
      (g.regenerate r1 r2).bonus = 20) ∧
    (∀ (g2 : Gem) (r3 r4 : ℚ), 0 ≤ r3 ∧ r3 < 1 → 0 ≤ r4 ∧ r4 < 1 →
      (g2.regenerate r3 r4).sprite = (g.regenerate r1 r2).sprite →
      (g2.regenerate r3 r4).bonus = (g.regenerate r1 r2).bonus) := by
  have key : ∀ (g : Gem) (r1 r2 : ℚ), 0 ≤ r1 ∧ r1 < 1 →
      ((g.regenerate r1 r2).sprite = "images/Gem Green.png" ∧ (g.regenerate r1 r2).bonus = 10) ∨
      ((g.regenerate r1 r2).sprite = "images/Gem Blue.png" ∧ (g.regenerate r1 r2).bonus = 15) ∨
      ((g.regenerate r1 r2).sprite = "images/Gem Orange.png" ∧
        (g.regenerate r1 r2).bonus = 20) := by
    intro g r1 r2 h
    obtain ⟨ha, hb⟩ := floor_mul_draw_lt r1 3 (by norm_num) h.1 h.2
    have ha1 : 0 ≤ ⌊r1 * 3⌋ := by simpa using ha
    have hb1 : ⌊r1 * 3⌋ < 3 := by simpa using hb
    have hcases : ⌊r1 * 3⌋ = 0 ∨ ⌊r1 * 3⌋ = 1 ∨ ⌊r1 * 3⌋ = 2 := by omega
    rcases hcases with h | h | h <;>
      simp [Gem.regenerate, h, gemSprites, gemBonuses]
  have hcol : (g.regenerate r1 r2).x = 15 ∨ (g.regenerate r1 r2).x = 116 ∨
      (g.regenerate r1 r2).x = 217 ∨ (g.regenerate r1 r2).x = 318 ∨
      (g.regenerate r1 r2).x = 419 := by
    obtain ⟨ha, hb⟩ := floor_mul_draw_lt r2 5 (by norm_num) h2.1 h2.2
    have ha1 : 0 ≤ ⌊r2 * 5⌋ := by simpa using ha
    have hb1 : ⌊r2 * 5⌋ < 5 := by simpa using hb
    have hcases : ⌊r2 * 5⌋ = 0 ∨ ⌊r2 * 5⌋ = 1 ∨ ⌊r2 * 5⌋ = 2 ∨ ⌊r2 * 5⌋ = 3 ∨
        ⌊r2 * 5⌋ = 4 := by omega
    rcases hcases with h | h | h | h | h <;>
      simp [Gem.regenerate, h]
  refine ⟨rfl, hcol, key g r1 r2 h1, ?_, ?_⟩
  · rcases key g r1 r2 h1 with h | h | h
    · exact Or.inl h.2
    · exact Or.inr (Or.inl h.2)
    · exact Or.inr (Or.inr h.2)
  · intro g2 r3 r4 h3 _ hsp
    rcases key g r1 r2 h1 with h | h | h <;> rcases key g2 r3 r4 h3 with k | k | k <;>
      simp [h.1, h.2, k.1, k.2] at hsp ⊢

/-- Witness of C10: the draws `9/10` and `9/10` give the orange gem on the last column. -/
theorem Gem_regenerate_range_witness :
    ((Gem.new 0).regenerate (9/10) (9/10)).y = (Gem.new 0).y ∧
    (((Gem.new 0).regenerate (9/10) (9/10)).x = 15 ∨ ((Gem.new 0).regenerate (9/10) (9/10)).x = 116 ∨
      ((Gem.new 0).regenerate (9/10) (9/10)).x = 217 ∨
      ((Gem.new 0).regenerate (9/10) (9/10)).x = 318 ∨
      ((Gem.new 0).regenerate (9/10) (9/10)).x = 419) ∧
    ((((Gem.new 0).regenerate (9/10) (9/10)).sprite = "images/Gem Green.png" ∧
        ((Gem.new 0).regenerate (9/10) (9/10)).bonus = 10) ∨
      (((Gem.new 0).regenerate (9/10) (9/10)).sprite = "images/Gem Blue.png" ∧
        ((Gem.new 0).regenerate (9/10) (9/10)).bonus = 15) ∨
      (((Gem.new 0).regenerate (9/10) (9/10)).sprite = "images/Gem Orange.png" ∧
        ((Gem.new 0).regenerate (9/10) (9/10)).bonus = 20)) ∧
    (((Gem.new 0).regenerate (9/10) (9/10)).bonus = 10 ∨
      ((Gem.new 0).regenerate (9/10) (9/10)).bonus = 15 ∨
      ((Gem.new 0).regenerate (9/10) (9/10)).bonus = 20) ∧
    (∀ (g2 : Gem) (r3 r4 : ℚ), 0 ≤ r3 ∧ r3 < 1 → 0 ≤ r4 ∧ r4 < 1 →
      (g2.regenerate r3 r4).sprite = ((Gem.new 0).regenerate (9/10) (9/10)).sprite →
      (g2.regenerate r3 r4).bonus = ((Gem.new 0).regenerate (9/10) (9/10)).bonus) :=
  Gem_regenerate_range (Gem.new 0) (9/10) (9/10) (by norm_num) (by norm_num)

/-! ## Resume after a victory reached while paused -/

/-- C7 fails on the code: start from `init (1/2)` (gem on the middle column), collect five
gems, walk onto the sixth, release the space key (manual pause, the enemies run at 150, 150,
200 just before it), let one frame pass (the paused game collects the gem, reaches 110 points
and runs `Game.pause` a second time, which overwrites the snapshot with zeros), release the
space key again: the game is running again and every enemy has speed 0. The game was never
paused before the manual pause, and every event is one the browser can deliver. -/
theorem resume_after_victory_while_paused_stops_enemies :
    (∀ e ∈ ninetyAndOnGem ++ [.key 32, frame 6, .key 32], e.ok) ∧
    (∀ k, k ≤ ninetyAndOnGem.length →
      (run (init (1/2)) (ninetyAndOnGem.take k)).map (fun s => s.game.isPaused) = some false) ∧
    (run (init (1/2)) ninetyAndOnGem).map
      (fun s => (s.player.score, s.allEnemies.map Enemy.speed)) = some (90, [150, 150, 200]) ∧
    (run (init (1/2)) (ninetyAndOnGem ++ [.key 32])).map
      (fun s => (s.game.isPaused, s.game.victory, s.game.enemySpeedArray))
      = some (true, false, [150, 150, 200]) ∧
    (run (init (1/2)) (ninetyAndOnGem ++ [.key 32, frame 6])).map
      (fun s => (s.game.isPaused, s.game.victory, s.player.score, s.game.enemySpeedArray))
      = some (true, true, 110, [0, 0, 0]) ∧
    (run (init (1/2)) (ninetyAndOnGem ++ [.key 32, frame 6, .key 32])).map
      (fun s => (s.game.isPaused, s.allEnemies.map Enemy.speed)) = some (false, [0, 0, 0]) := by
  refine ⟨?_, ?_, ?_, ?_, ?_, ?_⟩
  · decide!
  · decide!
  · decide!
  · decide!
  · decide!
  · decide!

/-! ## Reachable states: lemmas on the single operations -/

theorem updateFloatingScoreChange_flags (g : Game) (dt : ℚ) (now : ℤ) :
    (updateFloatingScoreChange g dt now).isPaused = g.isPaused ∧
    (updateFloatingScoreChange g dt now).victory = g.victory ∧
    (updateFloatingScoreChange g dt now).enemySpeedArray = g.enemySpeedArray := by
  unfold updateFloatingScoreChange
  cases hl : g.floatingScoreChanges with
  | nil => simp
  | cons a l =>
    simp only [List.map_cons]
    split_ifs <;> simp

theorem Enemy_update_keeps (e : Enemy) (dt r : ℚ) (hr : isDraw r)
    (he : (e.y = 63 ∨ e.y = 146 ∨ e.y = 229) ∧ 0 ≤ e.speed ∧ e.x < 505) :
    ((e.update dt r).y = 63 ∨ (e.update dt r).y = 146 ∨ (e.update dt r).y = 229) ∧
      0 ≤ (e.update dt r).speed ∧ (e.update dt r).x < 505 := by
  have hf : 0 ≤ ⌊r * 201⌋ := by simpa using (floor_mul_draw r 201 hr.1 hr.2).1
  simp only [Enemy.update]
  split_ifs with h
  · refine ⟨he.1, ?_, by norm_num⟩
    have : (0 : ℤ) ≤ ⌊r * 201⌋ + 150 := by omega
    show (0 : ℚ) ≤ ((⌊r * 201⌋ + 150 : ℤ) : ℚ)
    exact_mod_cast this
  · exact ⟨he.1, he.2.1, not_le.mp h⟩

theorem Enemy_update_stopped (e : Enemy) (dt r : ℚ) (hs : e.speed = 0) (hx : e.x < 505) :
    e.update dt r = e := by
  have h : ¬ e.x ≥ 505 := not_le.mpr hx
  cases e with
  | mk x y speed =>
    simp only at hs h
    simp [Enemy.update, hs, h]

theorem updateEnemies_length (dt : ℚ) (l : List Enemy) (draws : List ℚ) :
    (updateEnemies dt l draws).length = l.length := by
  induction l generalizing draws with
  | nil => rfl
  | cons a l ih => simp [updateEnemies, ih]

theorem updateEnemies_keeps (dt : ℚ) (l : List Enemy) (draws : List ℚ)
    (hd : ∀ r ∈ draws, isDraw r)
    (hl : ∀ e ∈ l, (e.y = 63 ∨ e.y = 146 ∨ e.y = 229) ∧ 0 ≤ e.speed ∧ e.x < 505) :
    ∀ e ∈ updateEnemies dt l draws,
      (e.y = 63 ∨ e.y = 146 ∨ e.y = 229) ∧ 0 ≤ e.speed ∧ e.x < 505 := by
  induction l generalizing draws with
  | nil => simp [updateEnemies]
  | cons a l ih =>
    have hhead : isDraw (draws.headD 0) := by
      cases draws with
      | nil => simp [isDraw]
      | cons r rs => simpa using hd r (List.mem_cons_self r rs)
    have htail : ∀ r ∈ draws.tail, isDraw r := fun r hr => hd r (List.mem_of_mem_tail hr)
    intro e he
    simp only [updateEnemies, List.mem_cons] at he
    rcases he with rfl | he
    · exact Enemy_update_keeps a dt _ hhead (hl a (List.mem_cons_self a l))
    · exact ih draws.tail htail (fun e1 h1 => hl e1 (List.mem_cons_of_mem a h1)) e he

theorem updateEnemies_stopped (dt : ℚ) (l : List Enemy) (draws : List ℚ)
    (hl : ∀ e ∈ l, e.speed = 0 ∧ e.x < 505) : updateEnemies dt l draws = l := by
  induction l generalizing draws with
  | nil => rfl
  | cons a l ih =>
    have ha := hl a (List.mem_cons_self a l)
    simp [updateEnemies, Enemy_update_stopped a dt _ ha.1 ha.2,
      ih draws.tail (fun e1 h1 => hl e1 (List.mem_cons_of_mem a h1))]

theorem recordSpeeds_mem (l : List Enemy) (arr : List ℚ) :
    ∀ v ∈ recordSpeeds l arr, (∃ e ∈ l, v = e.speed) ∨ v ∈ arr := by
  induction l generalizing arr with
  | nil => intro v hv; exact Or.inr (by simpa [recordSpeeds] using hv)
  | cons a l ih =>
    cases arr with
    | nil =>
      intro v hv
      simp only [recordSpeeds, List.mem_cons] at hv
      rcases hv with rfl | hv
      · exact Or.inl ⟨a, List.mem_cons_self a l, rfl⟩
      · rcases ih [] v hv with ⟨e, he, hve⟩ | h
        · exact Or.inl ⟨e, List.mem_cons_of_mem a he, hve⟩
        · simp at h
    | cons w arr =>
      intro v hv
      simp only [recordSpeeds, List.mem_cons] at hv
      rcases hv with rfl | hv
      · exact Or.inl ⟨a, List.mem_cons_self a l, rfl⟩
      · rcases ih arr v hv with ⟨e, he, hve⟩ | h
        · exact Or.inl ⟨e, List.mem_cons_of_mem a he, hve⟩
        · exact Or.inr (List.mem_cons_of_mem w h)

theorem recordSpeeds_length_eq (l : List Enemy) (arr : List ℚ) :
    (recordSpeeds l arr).length = max l.length arr.length := by
  induction l generalizing arr with
  | nil => simp [recordSpeeds]
  | cons a l ih =>
    cases arr with
    | nil => simp [recordSpeeds, ih]
    | cons w arr => simp [recordSpeeds, ih, Nat.succ_max_succ]

theorem restoreSpeeds_mem (l : List Enemy) (arr : List ℚ) (l1 : List Enemy)
    (h : numericEnemies (restoreSpeeds l arr) = some l1) :
    l1.length = l.length ∧
      ∀ e1 ∈ l1, ∃ e ∈ l, ∃ v ∈ arr, e1.x = e.x ∧ e1.y = e.y ∧ e1.speed = v := by
  induction l generalizing arr l1 with
  | nil =>
    simp only [restored_nil, Option.some.injEq] at h
    subst h
    simp
  | cons a l ih =>
    cases arr with
    | nil => simp [restored_cons_nil] at h
    | cons w arr =>
      simp only [restored_cons_cons, Option.map_eq_some'] at h
      obtain ⟨rest, hrest, rfl⟩ := h
      obtain ⟨hlen, hmem⟩ := ih arr rest hrest
      refine ⟨by simp [hlen], ?_⟩
      intro e1 he1
      rcases List.mem_cons.mp he1 with rfl | he1
      · exact ⟨a, List.mem_cons_self a l, w, List.mem_cons_self w arr, rfl, rfl, rfl⟩
      · obtain ⟨e, he, v, hv, hx, hy, hsp⟩ := hmem e1 he1
        exact ⟨e, List.mem_cons_of_mem a he, v, List.mem_cons_of_mem w hv, hx, hy, hsp⟩

theorem Gem_regenerate_bonus (g : Gem) (r1 r2 : ℚ) (h : isDraw r1) :
    (g.regenerate r1 r2).bonus = 10 ∨ (g.regenerate r1 r2).bonus = 15 ∨
      (g.regenerate r1 r2).bonus = 20 := by
  obtain ⟨ha, hb⟩ := floor_mul_draw_lt r1 3 (by norm_num) h.1 h.2
  have ha1 : 0 ≤ ⌊r1 * 3⌋ := by simpa using ha
  have hb1 : ⌊r1 * 3⌋ < 3 := by simpa using hb
  have hcases : ⌊r1 * 3⌋ = 0 ∨ ⌊r1 * 3⌋ = 1 ∨ ⌊r1 * 3⌋ = 2 := by omega
  rcases hcases with h | h | h <;> simp [Gem.regenerate, h, gemBonuses]

theorem firstCollision_gem_row (s : State) (h : Base s) (hy : s.player.y = -10) :
    firstCollision s.player s.allEnemies = none := by
  apply firstCollision_none
  intro e he hh
  have hey := (h.enemies e he).1
  have h10 : |e.y - s.player.y| = 10 := hh.1
  rw [hy] at h10
  rcases hey with h1 | h1 | h1 <;> rw [h1] at h10 <;> norm_num at h10

theorem Base_init (r : ℚ) : Base (init r) := by
  refine ⟨rfl, ?_, ?_, ?_, ?_, ?_, ?_, ?_, rfl, Or.inl rfl, ?_⟩
  · intro e he
    simp only [init, List.mem_cons, List.mem_singleton, List.not_mem_nil, or_false] at he
    rcases he with rfl | rfl | rfl <;> norm_num
  · intro hp; simp [init] at hp
  · intro v hv; simp [init] at hv
  · simp [init]
  · intro hp; simp [init] at hp
  · simp [onGrid, init]
  · simp [init]
  · intro hv; simp [init] at hv

theorem Inv_init (r : ℚ) : Inv (init r) :=
  ⟨Base_init r, by intro hv; simp [init] at hv⟩

theorem Base_updateEntities (s : State) (t : Tick) (ht : t.ok) (h : Base s) :
    Base (updateEntities s t) := by
  obtain ⟨hf1, hf2, hf3⟩ := updateFloatingScoreChange_flags s.game t.dt t.nowExpire
  refine ⟨?_, ?_, ?_, ?_, ?_, ?_, h.grid, h.score, h.gem_y, h.gem_bonus, ?_⟩
  · simpa [updateEntities, updateEnemies_length] using h.enemies_len
  · exact updateEnemies_keeps t.dt s.allEnemies t.enemyDraws ht.2.1 h.enemies
  · intro hp
    have hp1 : s.game.isPaused = true := by simpa [updateEntities, hf1] using hp
    have hstop : ∀ e ∈ s.allEnemies, e.speed = 0 ∧ e.x < 505 :=
      fun e he => ⟨h.paused_speed hp1 e he, (h.enemies e he).2.2⟩
    simpa [updateEntities, updateEnemies_stopped t.dt s.allEnemies t.enemyDraws hstop]
      using h.paused_speed hp1
  · simpa [updateEntities, hf3] using h.snapshot_nonneg
  · simpa [updateEntities, hf3] using h.snapshot_len
  · simpa [updateEntities, hf3, hf1] using h.paused_snapshot
  · simpa [updateEntities, hf2] using h.won_place

theorem Inv_updateEntities (s : State) (t : Tick) (ht : t.ok) (h : Inv s) :
    Inv (updateEntities s t) := by
  obtain ⟨hf1, hf2, -⟩ := updateFloatingScoreChange_flags s.game t.dt t.nowExpire
  refine ⟨Base_updateEntities s t ht h.base, ?_⟩
  simpa [updateEntities, hf1, hf2] using h.won_paused

theorem checkEnemyCollision_won (s : State) (now : ℤ) (h : Base s)
    (hv : s.game.victory = true) : checkEnemyCollision s now = s := by
  have hnone := firstCollision_gem_row s h (h.won_place hv).1
  simp [checkEnemyCollision, hnone]

theorem Base_checkEnemyCollision (s : State) (now : ℤ) (h : Base s) :
    Base (checkEnemyCollision s now) := by
  by_cases hv : s.game.victory = true
  · rw [checkEnemyCollision_won s now h hv]; exact h
  · cases hf : firstCollision s.player s.allEnemies with
    | none =>
      have : checkEnemyCollision s now = s := by simp [checkEnemyCollision, hf]
      rw [this]; exact h
    | some enemy =>
      refine ⟨?_, ?_, ?_, ?_, ?_, ?_, ?_, ?_, ?_, ?_, ?_⟩
      · simpa [checkEnemyCollision, hf] using h.enemies_len
      · simpa [checkEnemyCollision, hf] using h.enemies
      · simpa [checkEnemyCollision, hf] using h.paused_speed
      · simpa [checkEnemyCollision, hf] using h.snapshot_nonneg
      · simpa [checkEnemyCollision, hf] using h.snapshot_len
      · simpa [checkEnemyCollision, hf] using h.paused_snapshot
      · simp [checkEnemyCollision, hf, Player.reset, onGrid]
      · have hs := h.score
        simp only [checkEnemyCollision, hf, Player.reset]
        split_ifs with h20
        · show 0 ≤ s.player.score - 20
          omega
        · exact hs
      · simpa [checkEnemyCollision, hf] using h.gem_y
      · simpa [checkEnemyCollision, hf] using h.gem_bonus
      · intro hv1
        exact absurd (by simpa [checkEnemyCollision, hf] using hv1) hv

theorem checkEnemyCollision_flags (s : State) (now : ℤ) :
    (checkEnemyCollision s now).game.isPaused = s.game.isPaused ∧
    (checkEnemyCollision s now).game.victory = s.game.victory ∧
    (checkEnemyCollision s now).allEnemies = s.allEnemies := by
  cases hf : firstCollision s.player s.allEnemies <;> simp [checkEnemyCollision, hf]

theorem Inv_checkEnemyCollision (s : State) (now : ℤ) (h : Inv s) :
    Inv (checkEnemyCollision s now) := by
  obtain ⟨hf1, hf2, -⟩ := checkEnemyCollision_flags s now
  refine ⟨Base_checkEnemyCollision s now h.base, ?_⟩
  rw [hf1, hf2]; exact h.won_paused

theorem Base_pause (s : State) (h : Base s) : Base (Game.pause s) := by
  refine ⟨?_, ?_, ?_, ?_, ?_, ?_, h.grid, h.score, h.gem_y, h.gem_bonus, h.won_place⟩
  · simpa [Game.pause] using h.enemies_len
  · intro e he
    simp only [Game.pause, List.mem_map] at he
    obtain ⟨e0, he0, rfl⟩ := he
    exact ⟨(h.enemies e0 he0).1, le_refl _, (h.enemies e0 he0).2.2⟩
  · intro _ e he
    simp only [Game.pause, List.mem_map] at he
    obtain ⟨e0, -, rfl⟩ := he
    rfl
  · intro v hv
    rcases recordSpeeds_mem s.allEnemies s.game.enemySpeedArray v hv with ⟨e, he, rfl⟩ | hv1
    · exact (h.enemies e he).2.1
    · exact h.snapshot_nonneg v hv1
  · have hlen := h.snapshot_len
    simp only [Game.pause, recordSpeeds_length_eq, h.enemies_len]
    omega
  · intro _
    have hlen := h.snapshot_len
    simp only [Game.pause, recordSpeeds_length_eq, h.enemies_len]
    omega

theorem Inv_pause (s : State) (h : Base s) : Inv (Game.pause s) :=
  ⟨Base_pause s h, fun _ => rfl⟩

theorem Inv_checkGemCollision (s : State) (now : ℤ) (r1 r2 : ℚ) (hr1 : isDraw r1)
    (h : Inv s) : Inv (checkGemCollision s now r1 r2) := by
  by_cases hg : gemHits s
  · have hb := h.base
    have hscore : 0 ≤ s.player.score + s.gem.bonus := by
      have h1 := hb.score
      rcases hb.gem_bonus with h2 | h2 | h2 <;> omega
    by_cases hs : s.player.score + s.gem.bonus < 100
    · have hv : s.game.victory = false := hg.2.2
      refine ⟨⟨?_, ?_, ?_, ?_, ?_, ?_, ?_, ?_, ?_, ?_, ?_⟩, ?_⟩
      · simpa [checkGemCollision, hg, hs] using hb.enemies_len
      · simpa [checkGemCollision, hg, hs] using hb.enemies
      · simpa [checkGemCollision, hg, hs] using hb.paused_speed
      · simpa [checkGemCollision, hg, hs] using hb.snapshot_nonneg
      · simpa [checkGemCollision, hg, hs] using hb.snapshot_len
      · simpa [checkGemCollision, hg, hs] using hb.paused_snapshot
      · simp [checkGemCollision, hg, hs, Player.reset, onGrid]
      · simpa [checkGemCollision, hg, hs, Player.reset] using hscore
      · simpa [checkGemCollision, hg, hs, Gem.regenerate] using hb.gem_y
      · simpa [checkGemCollision, hg, hs] using Gem_regenerate_bonus s.gem r1 r2 hr1
      · intro hv1
        simp [checkGemCollision, hg, hs, hv] at hv1
      · intro hv1
        simp [checkGemCollision, hg, hs, hv] at hv1
    · have hy : s.player.y = -10 := by
        have h20 : |s.player.y - s.gem.y| = 20 := hg.1
        rw [hb.gem_y] at h20
        rcases hb.grid.2 with h1 | h1 | h1 | h1 | h1 | h1 <;> rw [h1] at h20 <;>
          first | exact h1 | (norm_num at h20)
      have hbase : Base { s with
          player := { s.player with score := s.player.score + s.gem.bonus }
          game := { s.game with
            floatingScoreChanges := s.game.floatingScoreChanges ++
              [{ createdAt := now, scoreChange := s.gem.bonus, x := s.gem.x,
                 y := s.gem.y + 100 }]
            victory := true } } :=
        ⟨hb.enemies_len, hb.enemies, hb.paused_speed, hb.snapshot_nonneg, hb.snapshot_len,
          hb.paused_snapshot, hb.grid, hscore, hb.gem_y, hb.gem_bonus, fun _ => ⟨hy, hg.2.1⟩⟩
      have hres : checkGemCollision s now r1 r2 = Game.pause { s with
          player := { s.player with score := s.player.score + s.gem.bonus }
          game := { s.game with
            floatingScoreChanges := s.game.floatingScoreChanges ++
              [{ createdAt := now, scoreChange := s.gem.bonus, x := s.gem.x,
                 y := s.gem.y + 100 }]
            victory := true } } := by
        simp [checkGemCollision, hg, hs]
      rw [hres]
      exact Inv_pause _ hbase
  · have : checkGemCollision s now r1 r2 = s := by simp [checkGemCollision, hg]
    rw [this]; exact h

theorem Inv_update (s : State) (t : Tick) (ht : t.ok) (h : Inv s) : Inv (update s t) :=
  Inv_checkGemCollision _ _ _ _ ht.2.2.1
    (Inv_checkEnemyCollision _ _ (Inv_updateEntities s t ht h))

theorem continue_some (s : State) (h : Base s) (hp : s.game.isPaused = true) :
    ∃ s1, (Game.continue s).toState = some s1 := by
  have hlen : s.allEnemies.length ≤ s.game.enemySpeedArray.length := by
    rw [h.enemies_len, h.paused_snapshot hp]
  obtain ⟨l1, h1, -, -⟩ := restoreSpeeds_some s.allEnemies s.game.enemySpeedArray hlen
  simp only [continue_toState, h1, Option.map_some']
  exact ⟨_, rfl⟩

theorem Inv_continue (s s1 : State) (h : Inv s)
    (hc : (Game.continue s).toState = some s1) :
    Inv s1 := by
  have hb := h.base
  simp only [continue_toState, Option.map_eq_some'] at hc
  obtain ⟨l1, hl1, rfl⟩ := hc
  obtain ⟨hlen, hmem⟩ := restoreSpeeds_mem _ _ _ hl1
  have henemies : ∀ e ∈ l1, (e.y = 63 ∨ e.y = 146 ∨ e.y = 229) ∧ 0 ≤ e.speed ∧ e.x < 505 := by
    intro e1 he1
    obtain ⟨e, he, v, hv, hx, hy, hsp⟩ := hmem e1 he1
    have hk := hb.enemies e he
    rw [hx, hy, hsp]
    exact ⟨hk.1, hb.snapshot_nonneg v hv, hk.2.2⟩
  by_cases hv : s.game.victory = true
  · simp only [hv, if_true]
    refine ⟨⟨hlen.trans hb.enemies_len, henemies, ?_, hb.snapshot_nonneg, hb.snapshot_len, ?_,
      ?_, le_refl _, hb.gem_y, hb.gem_bonus, ?_⟩, ?_⟩
    · intro hp; simp at hp
    · intro hp; simp at hp
    · simp [Player.reset, onGrid]
    · intro hv1; simp at hv1
    · intro hv1; simp at hv1
  · have hv0 : s.game.victory = false := by simpa using hv
    simp only [hv0, Bool.false_eq_true, if_false]
    refine ⟨⟨hlen.trans hb.enemies_len, henemies, ?_, hb.snapshot_nonneg, hb.snapshot_len, ?_,
      hb.grid, hb.score, hb.gem_y, hb.gem_bonus, ?_⟩, ?_⟩
    · intro hp; simp at hp
    · intro hp; simp at hp
    · intro hv1; simp [hv0] at hv1
    · intro hv1; simp [hv0] at hv1

theorem Inv_move (s : State) (x y : ℚ) (h : Inv s) (hp : s.game.isPaused = false)
    (hg : onGrid { s.player with x := x, y := y }) :
    Inv { s with player := { s.player with x := x, y := y } } := by
  have hb := h.base
  have hv : s.game.victory = false := by
    cases hv1 : s.game.victory with
    | false => rfl
    | true => rw [h.won_paused hv1] at hp; exact absurd hp (by simp)
  refine ⟨⟨hb.enemies_len, hb.enemies, hb.paused_speed, hb.snapshot_nonneg, hb.snapshot_len,
    hb.paused_snapshot, hg, hb.score, hb.gem_y, hb.gem_bonus, ?_⟩, h.won_paused⟩
  intro hv1
  rw [hv] at hv1
  exact absurd hv1 (by simp)

theorem onGrid_left (p : Player) (h : onGrid p) (hx : p.x ≥ 101) :
    onGrid { p with x := p.x - 101 } := by
  refine ⟨?_, h.2⟩
  rcases h.1 with h1 | h1 | h1 | h1 | h1 <;> rw [h1] at hx <;> simp only [h1] <;> norm_num at hx ⊢

theorem onGrid_right (p : Player) (h : onGrid p) (hx : p.x ≤ 303) :
    onGrid { p with x := p.x + 101 } := by
  refine ⟨?_, h.2⟩
  rcases h.1 with h1 | h1 | h1 | h1 | h1 <;> rw [h1] at hx <;> simp only [h1] <;> norm_num at hx ⊢

theorem onGrid_up (p : Player) (h : onGrid p) (hy : p.y ≥ 72) :
    onGrid { p with y := p.y - 83 } := by
  refine ⟨h.1, ?_⟩
  rcases h.2 with h1 | h1 | h1 | h1 | h1 | h1 <;> rw [h1] at hy <;> simp only [h1] <;>
    norm_num at hy ⊢

theorem onGrid_down (p : Player) (h : onGrid p) (hy : p.y ≤ 322) :
    onGrid { p with y := p.y + 83 } := by
  refine ⟨h.1, ?_⟩
  rcases h.2 with h1 | h1 | h1 | h1 | h1 | h1 <;> rw [h1] at hy <;> simp only [h1] <;>
    norm_num at hy ⊢

theorem Inv_handleInput (s s1 : State) (key : Option String) (h : Inv s)
    (hk : Player.handleInput s key = some s1) : Inv s1 := by
  unfold Player.handleInput at hk
  split at hk
  · split_ifs at hk with hc
    · simp only [Option.some.injEq] at hk
      subst hk
      exact Inv_move s _ _ h hc.2 (onGrid_left s.player h.base.grid hc.1)
    · simp only [Option.some.injEq] at hk; subst hk; exact h
  · split_ifs at hk with hc
    · simp only [Option.some.injEq] at hk
      subst hk
      exact Inv_move s _ _ h hc.2 (onGrid_right s.player h.base.grid hc.1)
    · simp only [Option.some.injEq] at hk; subst hk; exact h
  · split_ifs at hk with hc
    · simp only [Option.some.injEq] at hk
      subst hk
      exact Inv_move s _ _ h hc.2 (onGrid_up s.player h.base.grid hc.1)
    · simp only [Option.some.injEq] at hk; subst hk; exact h
  · split_ifs at hk with hc
    · simp only [Option.some.injEq] at hk
      subst hk
      exact Inv_move s _ _ h hc.2 (onGrid_down s.player h.base.grid hc.1)
    · simp only [Option.some.injEq] at hk; subst hk; exact h
  · split_ifs at hk with hc
    · simp only [Option.some.injEq] at hk
      subst hk
      exact Inv_pause s h.base
    · exact Inv_continue s s1 h hk
  · simp only [Option.some.injEq] at hk; subst hk; exact h

theorem handleInput_some (s : State) (key : Option String) (h : Inv s) :
    ∃ s1, Player.handleInput s key = some s1 := by
  unfold Player.handleInput
  split
  · split_ifs <;> exact ⟨_, rfl⟩
  · split_ifs <;> exact ⟨_, rfl⟩
  · split_ifs <;> exact ⟨_, rfl⟩
  · split_ifs <;> exact ⟨_, rfl⟩
  · split_ifs with hc
    · exact ⟨_, rfl⟩
    · exact continue_some s h.base (by simpa using hc)
  · exact ⟨_, rfl⟩

theorem Inv_step (s s1 : State) (e : Event) (he : e.ok) (h : Inv s)
    (hs : step s e = some s1) : Inv s1 := by
  cases e with
  | tick t =>
    simp only [step, Option.some.injEq] at hs
    subst hs
    exact Inv_update s t he h
  | key keyCode => exact Inv_handleInput s s1 _ h hs

theorem step_some (s : State) (e : Event) (h : Inv s) : ∃ s1, step s e = some s1 := by
  cases e with
  | tick t => exact ⟨_, rfl⟩
  | key keyCode => exact handleInput_some s _ h

theorem Inv_run (s s1 : State) (es : List Event) (hes : ∀ e ∈ es, e.ok) (h : Inv s)
    (hr : run s es = some s1) : Inv s1 := by
  induction es generalizing s with
  | nil =>
    simp only [run, Option.some.injEq] at hr
    subst hr
    exact h
  | cons e es ih =>
    simp only [run, Option.bind_eq_some] at hr
    obtain ⟨s2, hs2, hrest⟩ := hr
    exact ih s2 (fun e1 h1 => hes e1 (List.mem_cons_of_mem e h1))
      (Inv_step s s2 e (hes e (List.mem_cons_self e es)) h hs2) hrest

theorem run_some (s : State) (es : List Event) (hes : ∀ e ∈ es, e.ok) (h : Inv s) :
    ∃ s1, run s es = some s1 := by
  induction es generalizing s with
  | nil => exact ⟨s, rfl⟩
  | cons e es ih =>
    obtain ⟨s2, hs2⟩ := step_some s e h
    have h2 := Inv_step s s2 e (hes e (List.mem_cons_self e es)) h hs2
    obtain ⟨s3, hs3⟩ := ih s2 (fun e1 h1 => hes e1 (List.mem_cons_of_mem e h1)) h2
    exact ⟨s3, by simp [run, hs2, hs3]⟩

theorem Reachable_Inv (s : State) (h : Reachable s) : Inv s := by
  obtain ⟨r, es, -, hes, hr⟩ := h
  exact Inv_run (init r) s es hes (Inv_init r) hr

/-! ## Input while paused, floating score changes, score floor -/

/-- C11: in every state with `isPaused` true, `handleInput` with `left`, `right`, `up` or
`down` returns the state unchanged; and in every state, paused or not, a key that maps to no
action (`undefined` from a key code outside the `allowedKeys` table, or any string other than
the five of the `switch`) returns the state unchanged. -/
theorem handleInput_ignored (s : State) :
    (s.game.isPaused = true →
      Player.handleInput s (some "left") = some s ∧
      Player.handleInput s (some "right") = some s ∧
      Player.handleInput s (some "up") = some s ∧
      Player.handleInput s (some "down") = some s) ∧
    Player.handleInput s none = some s ∧
    (∀ keyCode : ℕ, allowedKeys keyCode = none → keyup s keyCode = some s) ∧
    (∀ key : String, key ≠ "left" → key ≠ "right" → key ≠ "up" → key ≠ "down" →
      key ≠ "togglePause" → Player.handleInput s (some key) = some s) := by
  refine ⟨?_, rfl, ?_, ?_⟩
  · intro hp
    simp [Player.handleInput, hp]
  · intro keyCode hk
    simp [keyup, hk, Player.handleInput]
  · intro key h1 h2 h3 h4 h5
    unfold Player.handleInput
    split <;> simp_all

/-- Witness of C11: the paused `wonState` ignores the four directions, and key code 65 is
ignored as well. -/
theorem handleInput_ignored_witness :
    (Player.handleInput wonState (some "left") = some wonState ∧
      Player.handleInput wonState (some "right") = some wonState ∧
      Player.handleInput wonState (some "up") = some wonState ∧
      Player.handleInput wonState (some "down") = some wonState) ∧
    keyup wonState 65 = some wonState :=
  ⟨(handleInput_ignored wonState).1 rfl, (handleInput_ignored wonState).2.2.1 65 rfl⟩

/-- C12: `updateFloatingScoreChange` keeps the entries in order with `y` increased by
`30 * dt`, and drops the first entry exactly when the collection is not empty and
`now - createdAt` of its first entry exceeds 1000: then the result is the moved rest; otherwise
it is the whole moved collection. Nothing but the first entry is removed, and the flags and
the speed snapshot are untouched. -/
theorem updateFloatingScoreChange_moves_and_expires (g : Game) (dt : ℚ) (now : ℤ) :
    (∀ first rest, g.floatingScoreChanges = first :: rest → now - first.createdAt > 1000 →
      (updateFloatingScoreChange g dt now).floatingScoreChanges =
        rest.map (fun f => { createdAt := f.createdAt, scoreChange := f.scoreChange,
                             x := f.x, y := f.y + 30 * dt })) ∧
    (∀ first rest, g.floatingScoreChanges = first :: rest → ¬ now - first.createdAt > 1000 →
      (updateFloatingScoreChange g dt now).floatingScoreChanges =
        (first :: rest).map (fun f => { createdAt := f.createdAt, scoreChange := f.scoreChange,
                                        x := f.x, y := f.y + 30 * dt })) ∧
    (g.floatingScoreChanges = [] →
      (updateFloatingScoreChange g dt now).floatingScoreChanges = []) ∧
    (updateFloatingScoreChange g dt now).isPaused = g.isPaused ∧
    (updateFloatingScoreChange g dt now).victory = g.victory ∧
    (updateFloatingScoreChange g dt now).enemySpeedArray = g.enemySpeedArray := by
  refine ⟨?_, ?_, ?_, updateFloatingScoreChange_flags g dt now⟩
  · intro first rest hl hexp
    simp [updateFloatingScoreChange, hl, hexp]
  · intro first rest hl hexp
    simp [updateFloatingScoreChange, hl, hexp]
  · intro hl
    simp [updateFloatingScoreChange, hl]

/-- Witness of C12: at 1001 ms the entry created at 0 ms is dropped and the one created at
500 ms is kept, moved down by 3; at 1000 ms both are kept. -/
theorem updateFloatingScoreChange_moves_and_expires_witness :
    (updateFloatingScoreChange twoChangesGame (1/10) 1001).floatingScoreChanges =
      [(⟨500, -20, 180, 163⟩ : FloatingScoreChange)].map
        (fun f => { createdAt := f.createdAt, scoreChange := f.scoreChange,
                    x := f.x, y := f.y + 30 * (1/10) }) ∧
    (updateFloatingScoreChange twoChangesGame (1/10) 1000).floatingScoreChanges =
      [(⟨0, 10, 217, 110⟩ : FloatingScoreChange), ⟨500, -20, 180, 163⟩].map
        (fun f => { createdAt := f.createdAt, scoreChange := f.scoreChange,
                    x := f.x, y := f.y + 30 * (1/10) }) :=
  ⟨(updateFloatingScoreChange_moves_and_expires twoChangesGame (1/10) 1001).1 _ _ rfl
      (by decide),
   (updateFloatingScoreChange_moves_and_expires twoChangesGame (1/10) 1000).2.1 _ _ rfl
      (by decide)⟩

/-- C14, as stated, fails: with 10 points, a collision (the enemy at `x = 180` touches the
player) leaves the score at 10, while `max (10 - 20) 0` is 0. -/
theorem checkEnemyCollision_score_not_floored :
    (∃ e ∈ lowScoreHitState.allEnemies,
      |e.y - lowScoreHitState.player.y| = 10 ∧ |e.x - lowScoreHitState.player.x| ≤ 40) ∧
    0 ≤ lowScoreHitState.player.score ∧
    (checkEnemyCollision lowScoreHitState 7).player.score = 10 ∧
    (checkEnemyCollision lowScoreHitState 7).player.score
      ≠ max (lowScoreHitState.player.score - 20) 0 := by
  refine ⟨⟨⟨180, 63, 150⟩, by simp [lowScoreHitState, twoHitsState], ?_⟩, by decide!,
    by decide!, by decide!⟩
  norm_num [lowScoreHitState]

/-- C14, amended: for every old score `≥ 0`, after `checkEnemyCollision` detects a collision
the score is `old - 20` if `old ≥ 20` and `old` itself if `old < 20`; so it is never negative,
and it equals `max (old - 20) 0` exactly when `old ≥ 20` or `old = 0`. -/
theorem checkEnemyCollision_score_guarded (s : State) (now : ℤ)
    (h : ∃ e ∈ s.allEnemies, |e.y - s.player.y| = 10 ∧ |e.x - s.player.x| ≤ 40)
    (h0 : 0 ≤ s.player.score) :
    (checkEnemyCollision s now).player.score
      = (if 20 ≤ s.player.score then s.player.score - 20 else s.player.score) ∧
    0 ≤ (checkEnemyCollision s now).player.score ∧
    ((checkEnemyCollision s now).player.score = max (s.player.score - 20) 0 ↔
      (20 ≤ s.player.score ∨ s.player.score = 0)) := by
  obtain ⟨pre, e, post, -, -, -, hf⟩ := firstCollision_first s.player s.allEnemies h
  have hsc : (checkEnemyCollision s now).player.score
      = (if 20 ≤ s.player.score then s.player.score - 20 else s.player.score) := by
    simp only [checkEnemyCollision, hf, Player.reset]
    split_ifs <;> rfl
  rw [hsc]
  refine ⟨rfl, ?_, ?_⟩
  · split_ifs <;> omega
  · split_ifs with h20
    · constructor
      · intro _; exact Or.inl h20
      · intro _; omega
    · constructor
      · intro hm; right; omega
      · intro hm; omega

/-- Witness of the amended C14: a collision at 50 points leaves 30. -/
theorem checkEnemyCollision_score_guarded_witness :
    (checkEnemyCollision twoHitsState 7).player.score
      = (if 20 ≤ twoHitsState.player.score then twoHitsState.player.score - 20
          else twoHitsState.player.score) ∧
    0 ≤ (checkEnemyCollision twoHitsState 7).player.score ∧
    ((checkEnemyCollision twoHitsState 7).player.score
        = max (twoHitsState.player.score - 20) 0 ↔
      (20 ≤ twoHitsState.player.score ∨ twoHitsState.player.score = 0)) :=
  checkEnemyCollision_score_guarded twoHitsState 7
    ⟨⟨180, 63, 150⟩, by simp [twoHitsState], by norm_num [twoHitsState]⟩
    (by simp [twoHitsState])

/-! ## Properties of the reachable states -/

theorem checkGemCollision_enemies (s : State) (now : ℤ) (r1 r2 : ℚ) :
    (checkGemCollision s now r1 r2).allEnemies = s.allEnemies ∨
      (checkGemCollision s now r1 r2).allEnemies =
        s.allEnemies.map (fun enemy => { enemy with speed := 0 }) := by
  by_cases hg : gemHits s
  · by_cases hs : s.player.score + s.gem.bonus < 100
    · exact Or.inl (by simp [checkGemCollision, hg, hs])
    · exact Or.inr (by simp [checkGemCollision, hg, hs, Game.pause])
  · exact Or.inl (by simp [checkGemCollision, hg])

theorem stopped_map_eq (l : List Enemy) (h : ∀ e ∈ l, e.speed = 0) :
    l.map (fun enemy => { enemy with speed := 0 }) = l := by
  induction l with
  | nil => rfl
  | cons a l ih =>
    have ha : a.speed = 0 := h a (List.mem_cons_self a l)
    have hl := ih (fun e he => h e (List.mem_cons_of_mem a he))
    cases a with
    | mk x y speed =>
      simp only at ha
      simp [ha, hl]

theorem update_enemies_paused (s : State) (t : Tick) (h : Base s)
    (hp : s.game.isPaused = true) : (update s t).allEnemies = s.allEnemies := by
  have hstop : ∀ e ∈ s.allEnemies, e.speed = 0 ∧ e.x < 505 :=
    fun e he => ⟨h.paused_speed hp e he, (h.enemies e he).2.2⟩
  have h1 : (updateEntities s t).allEnemies = s.allEnemies := by
    simp [updateEntities, updateEnemies_stopped t.dt s.allEnemies t.enemyDraws hstop]
  have h2 : (checkEnemyCollision (updateEntities s t) t.nowEnemy).allEnemies = s.allEnemies := by
    rw [(checkEnemyCollision_flags _ _).2.2, h1]
  unfold update
  rcases checkGemCollision_enemies (checkEnemyCollision (updateEntities s t) t.nowEnemy)
    t.nowGem t.gemIndexDraw t.gemColumnDraw with h3 | h3
  · rw [h3, h2]
  · rw [h3, h2]
    exact stopped_map_eq s.allEnemies (fun e he => (hstop e he).1)

theorem wonByPlay_reachable : Reachable wonByPlay :=
  ⟨1 / 2, sixGems, by decide!, by decide!, by decide!⟩

/-- C13 fails on the code: two gems are collected in the frames at 16 ms and 32 ms, the next
frame comes at 1100 ms, when both floating score changes are older than 1000 ms; that frame
removes the one created at 16 ms only, and the one created at 32 ms, 1068 ms old, is still
in the collection after it. Every event is one the browser can deliver. -/
theorem expired_entry_survives_late_frame :
    (∀ e ∈ twoGems ++ [staleFrame], e.ok) ∧
    (run (init (1/2)) twoGems).map
      (fun s => s.game.floatingScoreChanges.map (fun f => f.createdAt)) = some [16, 32] ∧
    (run (init (1/2)) (twoGems ++ [staleFrame])).map
      (fun s => s.game.floatingScoreChanges.map (fun f => f.createdAt)) = some [32] ∧
    (1100 : ℤ) - 32 > 1000 := by
  refine ⟨?_, ?_, ?_, ?_⟩
  · decide!
  · decide!
  · decide!
  · decide

/-- C15: in every reachable state every enemy's speed is `≥ 0`; and when `isPaused` is true
every enemy's speed is 0 and a frame, whatever it reads, leaves every enemy (position and
speed) as it was. -/
theorem reachable_enemy_speeds (s : State) (h : Reachable s) :
    (∀ e ∈ s.allEnemies, 0 ≤ e.speed) ∧
    (s.game.isPaused = true →
      (∀ e ∈ s.allEnemies, e.speed = 0) ∧
      ∀ t : Tick, (update s t).allEnemies = s.allEnemies) := by
  have hb := (Reachable_Inv s h).base
  refine ⟨fun e he => (hb.enemies e he).2.1, ?_⟩
  intro hp
  exact ⟨hb.paused_speed hp, fun t => update_enemies_paused s t hb hp⟩

/-- Witness of C15: the state reached by collecting six gems, paused by the victory. -/
theorem reachable_enemy_speeds_witness :
    (∀ e ∈ wonByPlay.allEnemies, 0 ≤ e.speed) ∧
    (wonByPlay.game.isPaused = true →
      (∀ e ∈ wonByPlay.allEnemies, e.speed = 0) ∧
      ∀ t : Tick, (update wonByPlay t).allEnemies = wonByPlay.allEnemies) :=
  reachable_enemy_speeds wonByPlay wonByPlay_reachable

/-- C16: in every reachable state the player's score, an integer, is `≥ 0`. -/
theorem reachable_score_nonneg (s : State) (h : Reachable s) : 0 ≤ s.player.score :=
  (Reachable_Inv s h).base.score

/-- Witness of C16: the score after two collected gems. -/
theorem reachable_score_nonneg_witness :
    0 ≤ ((run (init (1/2)) twoGems).getD (init (1/2))).player.score :=
  reachable_score_nonneg _ ⟨1 / 2, twoGems, by decide!, by decide!, by decide!⟩

/-- C17 fails on the code: after five gems (90 points) the player walks onto the sixth gem and
the space key pauses the game (`isPaused` true, `victory` false, snapshot 150, 150, 200); the
next frame, taken while the game is paused, collects the gem, sets `victory` and runs
`Game.pause` again, which overwrites the snapshot with 0, 0, 0. Every event is one the
browser can deliver. -/
theorem victory_pause_entered_while_paused :
    (∀ e ∈ ninetyAndOnGem ++ [.key 32, frame 6], e.ok) ∧
    (run (init (1/2)) (ninetyAndOnGem ++ [.key 32])).map
      (fun s => (s.game.isPaused, s.game.victory, s.player.score, s.game.enemySpeedArray))
      = some (true, false, 90, [150, 150, 200]) ∧
    (run (init (1/2)) (ninetyAndOnGem ++ [.key 32, frame 6])).map
      (fun s => (s.game.isPaused, s.game.victory, s.player.score, s.game.enemySpeedArray))
      = some (true, true, 110, [0, 0, 0]) := by
  refine ⟨?_, ?_, ?_⟩
  · decide!
  · decide!
  · decide!

theorem updateFloatingScoreChange_cases (g : Game) (dt : ℚ) (now : ℤ) :
    (updateFloatingScoreChange g dt now).floatingScoreChanges =
        g.floatingScoreChanges.map (fun f =>
          { createdAt := f.createdAt, scoreChange := f.scoreChange, x := f.x,
            y := f.y + 30 * dt }) ∨
      (updateFloatingScoreChange g dt now).floatingScoreChanges =
        (g.floatingScoreChanges.map (fun f =>
          { createdAt := f.createdAt, scoreChange := f.scoreChange, x := f.x,
            y := f.y + 30 * dt })).tail := by
  unfold updateFloatingScoreChange
  cases hl : g.floatingScoreChanges with
  | nil => simp
  | cons a l =>
    simp only [List.map_cons]
    split_ifs
    · exact Or.inr rfl
    · exact Or.inl rfl

theorem update_won (s : State) (t : Tick) (h : Inv s) (hv : s.game.victory = true) :
    update s t = updateEntities s t := by
  obtain ⟨-, hf2, -⟩ := updateFloatingScoreChange_flags s.game t.dt t.nowExpire
  have hb1 : Base (updateEntities s t) := by
    have hb := h.base
    obtain ⟨hf1, -, hf3⟩ := updateFloatingScoreChange_flags s.game t.dt t.nowExpire
    have hstop : ∀ e ∈ s.allEnemies, e.speed = 0 ∧ e.x < 505 :=
      fun e he => ⟨hb.paused_speed (h.won_paused hv) e he, (hb.enemies e he).2.2⟩
    have hen : (updateEntities s t).allEnemies = s.allEnemies := by
      simp [updateEntities, updateEnemies_stopped t.dt s.allEnemies t.enemyDraws hstop]
    refine ⟨by rw [hen]; exact hb.enemies_len, by rw [hen]; exact hb.enemies,
      by rw [hen]; intro _; exact hb.paused_speed (h.won_paused hv), ?_, ?_, ?_,
      hb.grid, hb.score, hb.gem_y, hb.gem_bonus, fun _ => hb.won_place hv⟩
    · simpa [updateEntities, hf3] using hb.snapshot_nonneg
    · simpa [updateEntities, hf3] using hb.snapshot_len
    · simpa [updateEntities, hf3, hf1] using hb.paused_snapshot
  have hv1 : (updateEntities s t).game.victory = true := by
    simpa [updateEntities, hf2] using hv
  have he : checkEnemyCollision (updateEntities s t) t.nowEnemy = updateEntities s t :=
    checkEnemyCollision_won _ _ hb1 hv1
  have hg : ¬ gemHits (updateEntities s t) := by
    intro hg
    rw [hg.2.2] at hv1
    exact absurd hv1 (by simp)
  simp [update, he, checkGemCollision, hg]

/-- C18: in every reachable state with `victory` true the player stands on the gem
(`|player.y - gem.y| = 20`, `|player.x - gem.x| ≤ 40`), and a frame, whatever it reads, leaves
the player (position and score), the gem and the victory flag as they were and appends no
floating score change: the collection after the frame is the old one moved down by `30 * dt`,
with or without its first entry. -/
theorem won_game_tick_scores_nothing (s : State) (t : Tick) (h : Reachable s)
    (hv : s.game.victory = true) :
    (|s.player.y - s.gem.y| = 20 ∧ |s.player.x - s.gem.x| ≤ 40) ∧
    (update s t).player = s.player ∧
    (update s t).gem = s.gem ∧
    (update s t).game.victory = true ∧
    ((update s t).game.floatingScoreChanges =
        s.game.floatingScoreChanges.map (fun f =>
          { createdAt := f.createdAt, scoreChange := f.scoreChange, x := f.x,
            y := f.y + 30 * t.dt }) ∨
      (update s t).game.floatingScoreChanges =
        (s.game.floatingScoreChanges.map (fun f =>
          { createdAt := f.createdAt, scoreChange := f.scoreChange, x := f.x,
            y := f.y + 30 * t.dt })).tail) := by
  have hi := Reachable_Inv s h
  have hb := hi.base
  obtain ⟨-, hf2, -⟩ := updateFloatingScoreChange_flags s.game t.dt t.nowExpire
  rw [update_won s t hi hv]
  refine ⟨⟨?_, (hb.won_place hv).2⟩, rfl, rfl, ?_, ?_⟩
  · rw [(hb.won_place hv).1, hb.gem_y]; norm_num
  · simpa [updateEntities, hf2] using hv
  · exact updateFloatingScoreChange_cases s.game t.dt t.nowExpire

/-- Witness of C18: a frame taken in the state won by collecting six gems. -/
theorem won_game_tick_scores_nothing_witness :
    (|wonByPlay.player.y - wonByPlay.gem.y| = 20 ∧
      |wonByPlay.player.x - wonByPlay.gem.x| ≤ 40) ∧
    (update wonByPlay ⟨2 / 125, [], 112, 112, 112, 0, 0⟩).player = wonByPlay.player ∧
    (update wonByPlay ⟨2 / 125, [], 112, 112, 112, 0, 0⟩).gem = wonByPlay.gem ∧
    (update wonByPlay ⟨2 / 125, [], 112, 112, 112, 0, 0⟩).game.victory = true ∧
    ((update wonByPlay ⟨2 / 125, [], 112, 112, 112, 0, 0⟩).game.floatingScoreChanges =
        wonByPlay.game.floatingScoreChanges.map (fun f =>
          { createdAt := f.createdAt, scoreChange := f.scoreChange, x := f.x,
            y := f.y + 30 * (2 / 125) }) ∨
      (update wonByPlay ⟨2 / 125, [], 112, 112, 112, 0, 0⟩).game.floatingScoreChanges =
        (wonByPlay.game.floatingScoreChanges.map (fun f =>
          { createdAt := f.createdAt, scoreChange := f.scoreChange, x := f.x,
            y := f.y + 30 * (2 / 125) })).tail) :=
  won_game_tick_scores_nothing wonByPlay ⟨2 / 125, [], 112, 112, 112, 0, 0⟩
    wonByPlay_reachable (by decide!)

/-- C19: in every reachable state with `isPaused` true, `enemySpeedArray` has as many entries
as there are enemies, so it has an entry at every index of `allEnemies`, and
every speed `Game.continue` restores is a number and `handleInput('togglePause')` (which runs
`Game.continue`) returns a state; more generally no event ever takes a reachable state outside
the model. -/
theorem continue_in_bounds (s : State) (h : Reachable s) :
    (s.game.isPaused = true →
      s.game.enemySpeedArray.length = s.allEnemies.length ∧
      (∀ (i : ℕ) (e : Enemy), s.allEnemies[i]? = some e →
        ∃ v, s.game.enemySpeedArray[i]? = some v) ∧
      (∀ e ∈ (Game.continue s).allEnemies, ∃ v, e.speed = some v) ∧
      ∃ s1, (Game.continue s).toState = some s1 ∧
        Player.handleInput s (some "togglePause") = some s1) ∧
    (∀ e : Event, ∃ s1, step s e = some s1) := by
  have hi := Reachable_Inv s h
  have hb := hi.base
  refine ⟨?_, fun e => step_some s e hi⟩
  intro hp
  have hlen : s.game.enemySpeedArray.length = s.allEnemies.length := by
    rw [hb.paused_snapshot hp, hb.enemies_len]
  refine ⟨hlen, ?_, ?_, ?_⟩
  · intro i e hi1
    have hlt : i < s.allEnemies.length := by
      by_contra hge
      rw [List.getElem?_eq_none (not_lt.mp hge)] at hi1
      exact absurd hi1 (by simp)
    rw [← hlen] at hlt
    exact ⟨s.game.enemySpeedArray[i], List.getElem?_eq_getElem hlt⟩
  · rw [continue_allEnemies]
    exact restoreSpeeds_numeric s.allEnemies s.game.enemySpeedArray (le_of_eq hlen.symm)
  · obtain ⟨s1, hs1⟩ := continue_some s hb hp
    exact ⟨s1, hs1, by simp [Player.handleInput, hp, hs1]⟩

/-- Witness of C19: resuming the state won by collecting six gems. -/
theorem continue_in_bounds_witness :
    (wonByPlay.game.isPaused = true →
      wonByPlay.game.enemySpeedArray.length = wonByPlay.allEnemies.length ∧
      (∀ (i : ℕ) (e : Enemy), wonByPlay.allEnemies[i]? = some e →
        ∃ v, wonByPlay.game.enemySpeedArray[i]? = some v) ∧
      (∀ e ∈ (Game.continue wonByPlay).allEnemies, ∃ v, e.speed = some v) ∧
      ∃ s1, (Game.continue wonByPlay).toState = some s1 ∧
        Player.handleInput wonByPlay (some "togglePause") = some s1) ∧
    (∀ e : Event, ∃ s1, step wonByPlay e = some s1) :=
  continue_in_bounds wonByPlay wonByPlay_reachable

theorem init_reachable : Reachable (init (1/2)) :=
  ⟨1 / 2, [], by decide!, by simp, rfl⟩

/-- C20: in every reachable state `player.x` is one of 0, 101, 202, 303, 404 and `player.y`
one of -10, 73, 156, 239, 322, 405; a move that would leave this grid (left at `x = 0`, right
at `x = 404`, up at `y = -10`, down at `y = 405`) returns the state unchanged, and every other
move, when the game is not paused, changes exactly one coordinate, `x` by 101 or `y` by 83,
and nothing else. -/
theorem player_stays_on_grid (s : State) (h : Reachable s) :
    ((s.player.x = 0 ∨ s.player.x = 101 ∨ s.player.x = 202 ∨ s.player.x = 303 ∨
        s.player.x = 404) ∧
      (s.player.y = -10 ∨ s.player.y = 73 ∨ s.player.y = 156 ∨ s.player.y = 239 ∨
        s.player.y = 322 ∨ s.player.y = 405)) ∧
    (s.player.x = 0 → Player.handleInput s (some "left") = some s) ∧
    (s.player.x = 404 → Player.handleInput s (some "right") = some s) ∧
    (s.player.y = -10 → Player.handleInput s (some "up") = some s) ∧
    (s.player.y = 405 → Player.handleInput s (some "down") = some s) ∧
    (s.game.isPaused = false →
      (s.player.x ≠ 0 → Player.handleInput s (some "left") =
        some { s with player := { s.player with x := s.player.x - 101 } }) ∧
      (s.player.x ≠ 404 → Player.handleInput s (some "right") =
        some { s with player := { s.player with x := s.player.x + 101 } }) ∧
      (s.player.y ≠ -10 → Player.handleInput s (some "up") =
        some { s with player := { s.player with y := s.player.y - 83 } }) ∧
      (s.player.y ≠ 405 → Player.handleInput s (some "down") =
        some { s with player := { s.player with y := s.player.y + 83 } })) := by
  have hg := (Reachable_Inv s h).base.grid
  refine ⟨hg, ?_, ?_, ?_, ?_, ?_⟩
  · intro hx
    have : ¬ (101 : ℚ) ≤ s.player.x := by rw [hx]; norm_num
    simp [Player.handleInput, this]
  · intro hx
    have : ¬ s.player.x ≤ 303 := by rw [hx]; norm_num
    simp [Player.handleInput, this]
  · intro hy
    have : ¬ (72 : ℚ) ≤ s.player.y := by rw [hy]; norm_num
    simp [Player.handleInput, this]
  · intro hy
    have : ¬ s.player.y ≤ 322 := by rw [hy]; norm_num
    simp [Player.handleInput, this]
  · intro hp
    refine ⟨?_, ?_, ?_, ?_⟩
    · intro hx
      have : (101 : ℚ) ≤ s.player.x := by
        rcases hg.1 with h1 | h1 | h1 | h1 | h1 <;> first | exact absurd h1 hx | norm_num [h1]
      simp [Player.handleInput, this, hp]
    · intro hx
      have : s.player.x ≤ 303 := by
        rcases hg.1 with h1 | h1 | h1 | h1 | h1 <;> first | exact absurd h1 hx | norm_num [h1]
      simp [Player.handleInput, this, hp]
    · intro hy
      have : (72 : ℚ) ≤ s.player.y := by
        rcases hg.2 with h1 | h1 | h1 | h1 | h1 | h1 <;>
          first | exact absurd h1 hy | norm_num [h1]
      simp [Player.handleInput, this, hp]
    · intro hy
      have : s.player.y ≤ 322 := by
        rcases hg.2 with h1 | h1 | h1 | h1 | h1 | h1 <;>
          first | exact absurd h1 hy | norm_num [h1]
      simp [Player.handleInput, this, hp]

/-- Witness of C20: in the initial state the player is at `(202, 405)`, down is ignored and
up moves the player to `y = 322`. -/
theorem player_stays_on_grid_witness :
    Player.handleInput (init (1/2)) (some "down") = some (init (1/2)) ∧
    Player.handleInput (init (1/2)) (some "up") =
      some { init (1/2) with
        player := { (init (1/2)).player with y := (init (1/2)).player.y - 83 } } :=
  ⟨(player_stays_on_grid (init (1/2)) init_reachable).2.2.2.2.1 rfl,
   ((player_stays_on_grid (init (1/2)) init_reachable).2.2.2.2.2 rfl).2.2.1
      (by norm_num [init])⟩

/-! ## Victory flag and score -/

theorem checkEnemyCollision_score_le (s : State) (now : ℤ) :
    (checkEnemyCollision s now).player.score ≤ s.player.score := by
  cases hf : firstCollision s.player s.allEnemies with
  | none => simp [checkEnemyCollision, hf]
  | some enemy =>
    simp only [checkEnemyCollision, hf, Player.reset]
    split_ifs
    · show s.player.score - 20 ≤ s.player.score
      omega
    · exact le_refl _

theorem checkGemCollision_victory_iff (s : State) (now : ℤ) (r1 r2 : ℚ)
    (hv : s.game.victory = false) (hs : s.player.score < 100) :
    ((checkGemCollision s now r1 r2).game.victory = true ↔
      100 ≤ (checkGemCollision s now r1 r2).player.score) := by
  by_cases hg : gemHits s
  · by_cases hlt : s.player.score + s.gem.bonus < 100
    · have h1 : (checkGemCollision s now r1 r2).game.victory = false := by
        simp [checkGemCollision, hg, hlt, hv]
      have h2 : (checkGemCollision s now r1 r2).player.score = s.player.score + s.gem.bonus := by
        simp [checkGemCollision, hg, hlt, Player.reset]
      rw [h1, h2]
      constructor
      · intro h; exact absurd h (by simp)
      · intro h; omega
    · have h1 : (checkGemCollision s now r1 r2).game.victory = true := by
        simp [checkGemCollision, hg, hlt, Game.pause]
      have h2 : (checkGemCollision s now r1 r2).player.score = s.player.score + s.gem.bonus := by
        simp [checkGemCollision, hg, hlt, Game.pause]
      rw [h1, h2]
      constructor
      · intro _; omega
      · intro _; rfl
  · have h0 : checkGemCollision s now r1 r2 = s := by simp [checkGemCollision, hg]
    rw [h0, hv]
    constructor
    · intro h; exact absurd h (by simp)
    · intro h; omega

theorem update_victory_iff (s : State) (t : Tick) (h : Inv s)
    (hsc : s.game.victory = true ↔ 100 ≤ s.player.score) :
    ((update s t).game.victory = true ↔ 100 ≤ (update s t).player.score) := by
  obtain ⟨-, hf2, -⟩ := updateFloatingScoreChange_flags s.game t.dt t.nowExpire
  by_cases hv : s.game.victory = true
  · rw [update_won s t h hv]
    have h1 : (updateEntities s t).game.victory = s.game.victory := by
      simp [updateEntities, hf2]
    rw [h1]
    exact hsc
  · have hv0 : s.game.victory = false := by simpa using hv
    have hlt : s.player.score < 100 := by
      by_contra hge
      exact hv (hsc.mpr (not_lt.mp hge))
    have hv1 : (checkEnemyCollision (updateEntities s t) t.nowEnemy).game.victory = false := by
      rw [(checkEnemyCollision_flags _ _).2.1]
      simp [updateEntities, hf2, hv0]
    have hs1 : (checkEnemyCollision (updateEntities s t) t.nowEnemy).player.score < 100 :=
      lt_of_le_of_lt (checkEnemyCollision_score_le _ _) hlt
    exact checkGemCollision_victory_iff _ _ _ _ hv1 hs1

theorem handleInput_victory_iff (s s1 : State) (key : Option String)
    (hsc : s.game.victory = true ↔ 100 ≤ s.player.score)
    (hk : Player.handleInput s key = some s1) :
    (s1.game.victory = true ↔ 100 ≤ s1.player.score) := by
  unfold Player.handleInput at hk
  split at hk
  · split_ifs at hk <;> simp only [Option.some.injEq] at hk <;> subst hk <;> exact hsc
  · split_ifs at hk <;> simp only [Option.some.injEq] at hk <;> subst hk <;> exact hsc
  · split_ifs at hk <;> simp only [Option.some.injEq] at hk <;> subst hk <;> exact hsc
  · split_ifs at hk <;> simp only [Option.some.injEq] at hk <;> subst hk <;> exact hsc
  · split_ifs at hk with hc
    · simp only [Option.some.injEq] at hk
      subst hk
      exact hsc
    · simp only [continue_toState, Option.map_eq_some'] at hk
      obtain ⟨l1, -, rfl⟩ := hk
      by_cases hv : s.game.victory = true
      · simp [hv]
      · have hv0 : s.game.victory = false := by simpa using hv
        simpa [hv0] using hsc
  · simp only [Option.some.injEq] at hk; subst hk; exact hsc

theorem run_victory_iff (s s1 : State) (es : List Event) (hes : ∀ e ∈ es, e.ok) (h : Inv s)
    (hsc : s.game.victory = true ↔ 100 ≤ s.player.score) (hr : run s es = some s1) :
    (s1.game.victory = true ↔ 100 ≤ s1.player.score) := by
  induction es generalizing s with
  | nil =>
    simp only [run, Option.some.injEq] at hr
    subst hr
    exact hsc
  | cons e es ih =>
    simp only [run, Option.bind_eq_some] at hr
    obtain ⟨s2, hs2, hrest⟩ := hr
    have hok := hes e (List.mem_cons_self e es)
    have h2 : Inv s2 := Inv_step s s2 e hok h hs2
    have hsc2 : s2.game.victory = true ↔ 100 ≤ s2.player.score := by
      cases e with
      | tick t =>
        simp only [step, Option.some.injEq] at hs2
        subst hs2
        exact update_victory_iff s t h hsc
      | key keyCode => exact handleInput_victory_iff s s2 _ hsc hs2
    exact ih s2 (fun e1 h1 => hes e1 (List.mem_cons_of_mem e h1)) h2 hsc2 hrest

/-- C22: in every reachable state `victory` is true exactly when the player's score is at
least 100, and `victory` true implies `isPaused` true. -/
theorem victory_iff_score_reached (s : State) (h : Reachable s) :
    (s.game.victory = true ↔ 100 ≤ s.player.score) ∧
    (s.game.victory = true → s.game.isPaused = true) := by
  refine ⟨?_, (Reachable_Inv s h).won_paused⟩
  obtain ⟨r, es, -, hes, hr⟩ := h
  have h0 : (init r).game.victory = true ↔ 100 ≤ (init r).player.score := by
    simp [init]
  exact run_victory_iff (init r) s es hes (Inv_init r) h0 hr

/-- Witness of C22: the state reached by collecting six gems has 110 points, is won and is
paused. -/
theorem victory_iff_score_reached_witness :
    (wonByPlay.game.victory = true ↔ 100 ≤ wonByPlay.player.score) ∧
    (wonByPlay.game.victory = true → wonByPlay.game.isPaused = true) :=
  victory_iff_score_reached wonByPlay wonByPlay_reachable

/-! ## At most one floating score change per frame -/

theorem checkGemCollision_after_hit (s : State) (now nowGem : ℤ) (r1 r2 : ℚ) (enemy : Enemy)
    (hg : s.gem.y = 10) (hf : firstCollision s.player s.allEnemies = some enemy) :
    (checkEnemyCollision s now).player.x = 202 ∧
    (checkEnemyCollision s now).player.y = 405 ∧
    ¬ gemHits (checkEnemyCollision s now) ∧
    checkGemCollision (checkEnemyCollision s now) nowGem r1 r2 = checkEnemyCollision s now := by
  have hx : (checkEnemyCollision s now).player.x = 202 := by
    simp [checkEnemyCollision, hf, Player.reset]
  have hy : (checkEnemyCollision s now).player.y = 405 := by
    simp [checkEnemyCollision, hf, Player.reset]
  have hgem : (checkEnemyCollision s now).gem.y = 10 := by
    simpa [checkEnemyCollision, hf] using hg
  have hno : ¬ gemHits (checkEnemyCollision s now) := by
    intro hh
    have h20 : |(checkEnemyCollision s now).player.y - (checkEnemyCollision s now).gem.y| = 20 :=
      hh.1
    rw [hy, hgem] at h20
    norm_num at h20
  exact ⟨hx, hy, hno, by simp [checkGemCollision, hno]⟩

theorem checkGemCollision_appends (s : State) (now : ℤ) (r1 r2 : ℚ) :
    (checkGemCollision s now r1 r2).game.floatingScoreChanges = s.game.floatingScoreChanges ∨
    (checkGemCollision s now r1 r2).game.floatingScoreChanges =
      s.game.floatingScoreChanges ++
        [{ createdAt := now, scoreChange := s.gem.bonus, x := s.gem.x, y := s.gem.y + 100 }] := by
  by_cases hg : gemHits s
  · by_cases hs : s.player.score + s.gem.bonus < 100
    · exact Or.inr (by simp [checkGemCollision, hg, hs])
    · exact Or.inr (by simp [checkGemCollision, hg, hs, Game.pause])
  · exact Or.inl (by simp [checkGemCollision, hg])

/-- C23: in every reachable state a frame appends at most one floating score change to the
collection left by `updateFloatingScoreChange`; when the enemy check finds a collision the
player is at `(202, 405)` before the gem check, the gem check does not fire (the gem is on
`y = 10`) and does nothing. -/
theorem update_appends_at_most_one (s : State) (t : Tick) (h : Reachable s) :
    s.gem.y = 10 ∧
    (∀ enemy, firstCollision (updateEntities s t).player (updateEntities s t).allEnemies
        = some enemy →
      (checkEnemyCollision (updateEntities s t) t.nowEnemy).player.x = 202 ∧
      (checkEnemyCollision (updateEntities s t) t.nowEnemy).player.y = 405 ∧
      ¬ gemHits (checkEnemyCollision (updateEntities s t) t.nowEnemy) ∧
      update s t = checkEnemyCollision (updateEntities s t) t.nowEnemy) ∧
    (∃ added : List FloatingScoreChange, added.length ≤ 1 ∧
      (update s t).game.floatingScoreChanges =
        (updateFloatingScoreChange s.game t.dt t.nowExpire).floatingScoreChanges ++ added) := by
  have hgy : s.gem.y = 10 := (Reachable_Inv s h).base.gem_y
  have hgy1 : (updateEntities s t).gem.y = 10 := hgy
  refine ⟨hgy, ?_, ?_⟩
  · intro enemy hf
    exact checkGemCollision_after_hit (updateEntities s t) t.nowEnemy t.nowGem
      t.gemIndexDraw t.gemColumnDraw enemy hgy1 hf
  · cases hf : firstCollision (updateEntities s t).player (updateEntities s t).allEnemies with
    | some enemy =>
      have hno := (checkGemCollision_after_hit (updateEntities s t) t.nowEnemy t.nowGem
        t.gemIndexDraw t.gemColumnDraw enemy hgy1 hf).2.2.2
      refine ⟨[{ createdAt := t.nowEnemy, scoreChange := -20, x := enemy.x,
                 y := enemy.y + 100 }], by simp, ?_⟩
      unfold update
      rw [hno]
      simp only [checkEnemyCollision, hf]
      rfl
    | none =>
      have he : checkEnemyCollision (updateEntities s t) t.nowEnemy = updateEntities s t := by
        simp [checkEnemyCollision, hf]
      unfold update
      rw [he]
      rcases checkGemCollision_appends (updateEntities s t) t.nowGem t.gemIndexDraw
        t.gemColumnDraw with h1 | h1
      · exact ⟨[], by simp, by rw [h1]; simp [updateEntities]⟩
      · exact ⟨[{ createdAt := t.nowGem, scoreChange := (updateEntities s t).gem.bonus,
                  x := (updateEntities s t).gem.x, y := (updateEntities s t).gem.y + 100 }],
          by simp, by rw [h1]; rfl⟩

theorem besideThirdEnemy_reachable : Reachable besideThirdEnemy :=
  ⟨1 / 2, twoUps, by decide!, by decide!, by decide!⟩

/-- Witness of C23: the player is at `(202, 239)` and a frame brings the third enemy to
`x = 200`; the enemy check finds that collision, the player is back at `(202, 405)`, the gem
check does not fire, and the frame appends the single entry `-20` at `(200, 329)`. -/
theorem update_appends_at_most_one_witness :
    firstCollision (updateEntities besideThirdEnemy oneSecondFrame).player
      (updateEntities besideThirdEnemy oneSecondFrame).allEnemies = some ⟨200, 229, 200⟩ ∧
    ((checkEnemyCollision (updateEntities besideThirdEnemy oneSecondFrame)
        oneSecondFrame.nowEnemy).player.x = 202 ∧
      (checkEnemyCollision (updateEntities besideThirdEnemy oneSecondFrame)
        oneSecondFrame.nowEnemy).player.y = 405 ∧
      ¬ gemHits (checkEnemyCollision (updateEntities besideThirdEnemy oneSecondFrame)
        oneSecondFrame.nowEnemy) ∧
      update besideThirdEnemy oneSecondFrame =
        checkEnemyCollision (updateEntities besideThirdEnemy oneSecondFrame)
          oneSecondFrame.nowEnemy) ∧
    (∃ added : List FloatingScoreChange, added.length ≤ 1 ∧
      (update besideThirdEnemy oneSecondFrame).game.floatingScoreChanges =
        (updateFloatingScoreChange besideThirdEnemy.game oneSecondFrame.dt
          oneSecondFrame.nowExpire).floatingScoreChanges ++ added) ∧
    (update besideThirdEnemy oneSecondFrame).game.floatingScoreChanges =
      [⟨1000, -20, 200, 329⟩] :=
  ⟨by decide!,
   (update_appends_at_most_one besideThirdEnemy oneSecondFrame
      besideThirdEnemy_reachable).2.1 ⟨200, 229, 200⟩ (by decide!),
   (update_appends_at_most_one besideThirdEnemy oneSecondFrame
      besideThirdEnemy_reachable).2.2,
   by decide!⟩

/-! ## Creation order of the floating score changes -/

theorem Chrono_mono (c c1 : ℤ) (l : List FloatingScoreChange) (hc : c ≤ c1)
    (h : Chrono c l) : Chrono c1 l :=
  ⟨h.1, fun f hf => (h.2 f hf).trans hc⟩

theorem Chrono_append (c : ℤ) (l : List FloatingScoreChange) (f : FloatingScoreChange)
    (hc : c ≤ f.createdAt) (h : Chrono c l) : Chrono f.createdAt (l ++ [f]) := by
  refine ⟨?_, ?_⟩
  · rw [List.pairwise_append]
    refine ⟨h.1, List.pairwise_singleton _ _, ?_⟩
    intro a ha b hb
    rw [List.mem_singleton] at hb
    subst hb
    exact (h.2 a ha).trans hc
  · intro g hg
    rcases List.mem_append.mp hg with hg1 | hg1
    · exact (h.2 g hg1).trans hc
    · rw [List.mem_singleton] at hg1
      subst hg1
      exact le_refl _

theorem Chrono_updateFloatingScoreChange (c : ℤ) (g : Game) (dt : ℚ) (now : ℤ)
    (h : Chrono c g.floatingScoreChanges) :
    Chrono c (updateFloatingScoreChange g dt now).floatingScoreChanges := by
  have hmoved : Chrono c (g.floatingScoreChanges.map (fun f =>
      { createdAt := f.createdAt, scoreChange := f.scoreChange, x := f.x,
        y := f.y + 30 * dt })) := by
    refine ⟨?_, ?_⟩
    · rw [List.pairwise_map]
      exact h.1
    · intro f hf
      obtain ⟨f0, hf0, rfl⟩ := List.mem_map.mp hf
      exact h.2 f0 hf0
  rcases updateFloatingScoreChange_cases g dt now with h1 | h1
  · rw [h1]; exact hmoved
  · rw [h1]
    exact ⟨hmoved.1.sublist (List.tail_sublist _),
      fun f hf => hmoved.2 f (List.mem_of_mem_tail hf)⟩

theorem Chrono_checkEnemyCollision (c : ℤ) (s : State) (now : ℤ) (hc : c ≤ now)
    (h : Chrono c s.game.floatingScoreChanges) :
    Chrono now (checkEnemyCollision s now).game.floatingScoreChanges := by
  cases hf : firstCollision s.player s.allEnemies with
  | none =>
    have : checkEnemyCollision s now = s := by simp [checkEnemyCollision, hf]
    rw [this]
    exact Chrono_mono c now _ hc h
  | some enemy =>
    have : (checkEnemyCollision s now).game.floatingScoreChanges =
        s.game.floatingScoreChanges ++
          [{ createdAt := now, scoreChange := -20, x := enemy.x, y := enemy.y + 100 }] := by
      simp [checkEnemyCollision, hf]
    rw [this]
    exact Chrono_append c _ ⟨now, -20, enemy.x, enemy.y + 100⟩ hc h

theorem Chrono_checkGemCollision (c : ℤ) (s : State) (now : ℤ) (r1 r2 : ℚ) (hc : c ≤ now)
    (h : Chrono c s.game.floatingScoreChanges) :
    Chrono now (checkGemCollision s now r1 r2).game.floatingScoreChanges := by
  rcases checkGemCollision_appends s now r1 r2 with h1 | h1
  · rw [h1]
    exact Chrono_mono c now _ hc h
  · rw [h1]
    exact Chrono_append c _ ⟨now, s.gem.bonus, s.gem.x, s.gem.y + 100⟩ hc h

theorem Chrono_update (c : ℤ) (s : State) (t : Tick) (h1 : c ≤ t.nowExpire)
    (h2 : t.nowExpire ≤ t.nowEnemy) (h3 : t.nowEnemy ≤ t.nowGem)
    (h : Chrono c s.game.floatingScoreChanges) :
    Chrono t.nowGem (update s t).game.floatingScoreChanges := by
  have ha : Chrono c (updateEntities s t).game.floatingScoreChanges :=
    Chrono_updateFloatingScoreChange c s.game t.dt t.nowExpire h
  have hb := Chrono_checkEnemyCollision c (updateEntities s t) t.nowEnemy (h1.trans h2) ha
  exact Chrono_checkGemCollision t.nowEnemy _ t.nowGem t.gemIndexDraw t.gemColumnDraw h3 hb

theorem handleInput_floatingScoreChanges (s s1 : State) (key : Option String)
    (hk : Player.handleInput s key = some s1) :
    s1.game.floatingScoreChanges = s.game.floatingScoreChanges := by
  unfold Player.handleInput at hk
  split at hk
  · split_ifs at hk <;> simp only [Option.some.injEq] at hk <;> subst hk <;> rfl
  · split_ifs at hk <;> simp only [Option.some.injEq] at hk <;> subst hk <;> rfl
  · split_ifs at hk <;> simp only [Option.some.injEq] at hk <;> subst hk <;> rfl
  · split_ifs at hk <;> simp only [Option.some.injEq] at hk <;> subst hk <;> rfl
  · split_ifs at hk with hc
    · simp only [Option.some.injEq] at hk
      subst hk
      rfl
    · simp only [continue_toState, Option.map_eq_some'] at hk
      obtain ⟨l1, -, rfl⟩ := hk
      split_ifs <;> rfl
  · simp only [Option.some.injEq] at hk; subst hk; rfl

theorem Chrono_run (c : ℤ) (s s1 : State) (es : List Event) (hc : clockOk c es)
    (h : Chrono c s.game.floatingScoreChanges) (hr : run s es = some s1) :
    ∃ c1, Chrono c1 s1.game.floatingScoreChanges := by
  induction es generalizing s c with
  | nil =>
    simp only [run, Option.some.injEq] at hr
    subst hr
    exact ⟨c, h⟩
  | cons e es ih =>
    simp only [run, Option.bind_eq_some] at hr
    obtain ⟨s2, hs2, hrest⟩ := hr
    cases e with
    | tick t =>
      simp only [step, Option.some.injEq] at hs2
      subst hs2
      obtain ⟨h1, h2, h3, h4⟩ := hc
      exact ih t.nowGem (update s t) h4 (Chrono_update c s t h1 h2 h3 h) hrest
    | key keyCode =>
      have hfs := handleInput_floatingScoreChanges s s2 _ hs2
      exact ih c s2 hc (by rw [hfs]; exact h) hrest

/-- C21: in every execution from the initial state whose clock readings never decrease, the
`createdAt` values of `game.floatingScoreChanges` are non-decreasing from the first to the
last element; so no element is older than the first one. -/
theorem floatingScoreChanges_in_creation_order (r : ℚ) (c : ℤ) (es : List Event) (s : State)
    (hc : clockOk c es) (hr : run (init r) es = some s) :
    s.game.floatingScoreChanges.Pairwise (fun a b => a.createdAt ≤ b.createdAt) ∧
    (∀ first rest, s.game.floatingScoreChanges = first :: rest →
      ∀ f ∈ rest, first.createdAt ≤ f.createdAt) := by
  have h0 : Chrono c (init r).game.floatingScoreChanges :=
    ⟨List.Pairwise.nil, fun f hf => by simp [init] at hf⟩
  obtain ⟨c1, h1⟩ := Chrono_run c (init r) s es hc h0 hr
  refine ⟨h1.1, ?_⟩
  intro first rest hl f hf
  have hp := h1.1
  rw [hl, List.pairwise_cons] at hp
  exact hp.1 f hf

/-- Witness of C21: after two gems collected at 16 ms and 32 ms the collection is in creation
order. -/
theorem floatingScoreChanges_in_creation_order_witness :
    ((run (init (1/2)) twoGems).getD (init (1/2))).game.floatingScoreChanges.Pairwise
      (fun a b => a.createdAt ≤ b.createdAt) ∧
    (∀ first rest,
      ((run (init (1/2)) twoGems).getD (init (1/2))).game.floatingScoreChanges = first :: rest →
      ∀ f ∈ rest, first.createdAt ≤ f.createdAt) :=
  floatingScoreChanges_in_creation_order (1/2) 0 twoGems _ (by decide!) (by decide!)

end ArcadeGame
